import Mathlib

/-!
Verification development for the naia server replication manager, the client
handshake state machine, and the shared property wrappers.

The Rust sources embedded here:
  server/src/replicate/replicate_manager.rs  (ReplicateManager)
  client/src/client.rs                       (handshake receive path)
  client/src/packet_writer.rs                (packet writer size policy)
  shared/src/protocol/property.rs            (Property wrapper)
  shared/src/protocol/entity_property.rs     (EntityProperty, VecDequeEntityProperty)

Shared-crate helpers that are not part of the sources (DiffMask, Ref,
KeyGenerator, MutHandler, MTU_SIZE, the bit-level serde codec) are modelled
from the specification and marked as such in their doc comments.
-/

namespace Naia

/-! ## Association lists (model of HashMap / SparseSecondaryMap) -/

/-- Lookup in an association list; models HashMap::get. -/
def alook {α β : Type} [DecidableEq α] : List (α × β) → α → Option β
  | [], _ => none
  | (k, v) :: t, a => if k = a then some v else alook t a

/-- Insert-or-replace in an association list; models HashMap::insert. -/
def aset {α β : Type} [DecidableEq α] : List (α × β) → α → β → List (α × β)
  | [], a, b => [(a, b)]
  | (k, v) :: t, a, b => if k = a then (a, b) :: t else (k, v) :: aset t a b

/-- Delete from an association list; models HashMap::remove. -/
def adel {α β : Type} [DecidableEq α] : List (α × β) → α → List (α × β)
  | [], _ => []
  | (k, v) :: t, a => if k = a then adel t a else (k, v) :: adel t a

/-- Insert into a set modelled as a duplicate-free list; models HashSet::insert. -/
def sins {α : Type} [DecidableEq α] (l : List α) (a : α) : List α :=
  if a ∈ l then l else a :: l

/-- Remove from a set modelled as a list; models HashSet::remove. -/
def sdel {α : Type} [DecidableEq α] : List α → α → List α
  | [], _ => []
  | x :: t, a => if x = a then sdel t a else x :: sdel t a

theorem alook_aset_self {α β : Type} [DecidableEq α] (l : List (α × β)) (a : α) (b : β) :
    alook (aset l a b) a = some b := by
  induction l with
  | nil => simp [aset, alook]
  | cons h t ih =>
    obtain ⟨k, v⟩ := h
    by_cases hk : k = a <;> simp [aset, alook, hk, ih]

theorem alook_aset_ne {α β : Type} [DecidableEq α] (l : List (α × β)) (a c : α) (b : β)
    (h : c ≠ a) : alook (aset l a b) c = alook l c := by
  induction l with
  | nil => simp [aset, alook, Ne.symm h]
  | cons hd t ih =>
    obtain ⟨k, v⟩ := hd
    by_cases hk : k = a
    · subst hk
      simp [aset, alook, Ne.symm h]
    · simp [aset, alook, hk, ih]

theorem alook_adel_self {α β : Type} [DecidableEq α] (l : List (α × β)) (a : α) :
    alook (adel l a) a = none := by
  induction l with
  | nil => simp [adel, alook]
  | cons h t ih =>
    obtain ⟨k, v⟩ := h
    by_cases hk : k = a <;> simp [adel, alook, hk, ih]

theorem alook_adel_ne {α β : Type} [DecidableEq α] (l : List (α × β)) (a c : α)
    (h : c ≠ a) : alook (adel l a) c = alook l c := by
  induction l with
  | nil => simp [adel, alook]
  | cons hd t ih =>
    obtain ⟨k, v⟩ := hd
    by_cases hk : k = a
    · subst hk
      simp [adel, alook, Ne.symm h, ih]
    · simp [adel, alook, hk, ih]

theorem aset_self_of_alook {α β : Type} [DecidableEq α] (l : List (α × β)) (a : α) (b : β)
    (h : alook l a = some b) : aset l a b = l := by
  induction l with
  | nil => simp [alook] at h
  | cons hd t ih =>
    obtain ⟨k, v⟩ := hd
    by_cases hk : k = a
    · subst hk
      simp [alook] at h
      simp [aset, h]
    · simp [alook, hk] at h
      simp [aset, hk, ih h]

theorem aset_aset {α β : Type} [DecidableEq α] (l : List (α × β)) (a : α) (b b' : β) :
    aset (aset l a b) a b' = aset l a b' := by
  induction l with
  | nil => simp [aset]
  | cons hd t ih =>
    obtain ⟨k, v⟩ := hd
    by_cases hk : k = a <;> simp [aset, hk, ih]

theorem adel_aset_absent {α β : Type} [DecidableEq α] (l : List (α × β)) (a : α) (b : β)
    (h : alook l a = none) : adel (aset l a b) a = l := by
  induction l with
  | nil => simp [aset, adel]
  | cons hd t ih =>
    obtain ⟨k, v⟩ := hd
    by_cases hk : k = a
    · subst hk
      simp [alook] at h
    · simp [alook, hk] at h
      simp [aset, adel, hk, ih h]

theorem adel_absent {α β : Type} [DecidableEq α] (l : List (α × β)) (a : α)
    (h : alook l a = none) : adel l a = l := by
  induction l with
  | nil => simp [adel]
  | cons hd t ih =>
    obtain ⟨k, v⟩ := hd
    by_cases hk : k = a
    · subst hk
      simp [alook] at h
    · simp [alook, hk] at h
      simp [adel, hk, ih h]

theorem mem_sdel_ne {α : Type} [DecidableEq α] (l : List α) (a c : α) (h : c ≠ a) :
    c ∈ sdel l a ↔ c ∈ l := by
  induction l with
  | nil => simp [sdel]
  | cons x t ih =>
    by_cases hx : x = a
    · subst hx
      simp [sdel, ih, fun hh : c = x => h hh]
    · simp [sdel, hx, ih]

theorem not_mem_sdel_self {α : Type} [DecidableEq α] (l : List α) (a : α) :
    a ∉ sdel l a := by
  induction l with
  | nil => simp [sdel]
  | cons x t ih =>
    by_cases hx : x = a
    · simpa [sdel, hx] using ih
    · simp only [sdel, if_neg hx, List.mem_cons]
      rintro (hh | hh)
      · exact hx hh.symm
      · exact ih hh

theorem mem_sins {α : Type} [DecidableEq α] (l : List α) (a c : α) :
    c ∈ sins l a ↔ c = a ∨ c ∈ l := by
  by_cases h : a ∈ l
  · simp only [sins, if_pos h]
    constructor
    · exact fun hc => Or.inr hc
    · rintro (rfl | hc)
      · exact h
      · exact hc
  · simp [sins, h]

/-! ## Diff masks

Modelled from the spec: a diff mask is a bitmap, one bit per declared property
("Bit i set means property i has a pending change"), supporting clear, or,
nand and bit-test.  We represent the bitmap as a natural number; `or` is
bitwise or, clearing sets it to zero, and `dmNand a b` is bitwise
"a AND NOT b" (the DiffMask::nand of the shared crate). -/

abbrev DiffMask := Nat

/-- Bitwise a AND NOT b on bitmaps: modelled from the spec's `nand`. -/
def dmNand (a b : DiffMask) : DiffMask := a ^^^ (a &&& b)

/-- Successive nand of a mask against a list of masks (the packet-walk of
notify_packet_dropped applies them one at a time, in walk order). -/
def nandFold (a : DiffMask) (ms : List DiffMask) : DiffMask :=
  ms.foldl dmNand a

/-- Union (bitwise or) of a list of masks. -/
def lorAll (ms : List DiffMask) : DiffMask :=
  ms.foldl (fun a b => a ||| b) 0

/-- A list all of whose elements fail a test has no element passing it. -/
theorem all_not_eq_not_any {β : Type} (p : β → Bool) (l : List β) :
    (l.all fun x => !(p x)) = !(l.any p) := by
  induction l with
  | nil => simp
  | cons x t ih => simp [List.all_cons, List.any_cons, ih, Bool.not_or]

theorem testBit_dmNand (a b : DiffMask) (i : Nat) :
    (dmNand a b).testBit i = (a.testBit i && !(b.testBit i)) := by
  simp only [dmNand, Nat.testBit_xor, Nat.testBit_and]
  cases a.testBit i <;> cases b.testBit i <;> rfl

theorem testBit_nandFold (a : DiffMask) (ms : List DiffMask) (i : Nat) :
    (nandFold a ms).testBit i = (a.testBit i && ms.all (fun m => !(m.testBit i))) := by
  induction ms generalizing a with
  | nil => simp [nandFold]
  | cons m t ih =>
    simp only [nandFold, List.foldl_cons, List.all_cons]
    rw [show t.foldl dmNand (dmNand a m) = nandFold (dmNand a m) t from rfl, ih,
      testBit_dmNand]
    cases a.testBit i <;> cases m.testBit i <;> simp

theorem testBit_lorAll (ms : List DiffMask) (i : Nat) :
    (lorAll ms).testBit i = ms.any (fun m => m.testBit i) := by
  have key : ∀ (acc : Nat), (ms.foldl (fun a b => a ||| b) acc).testBit i
      = (acc.testBit i || ms.any (fun m => m.testBit i)) := by
    induction ms with
    | nil => intro acc; simp
    | cons m t ih =>
      intro acc
      rw [List.foldl_cons, ih, Nat.testBit_or, List.any_cons]
      cases acc.testBit i <;> cases m.testBit i <;> simp
  simpa [lorAll] using key 0

/-- The successive nands of the drop-walk compute exactly
"dropped AND NOT (union of later masks)". -/
theorem nandFold_eq_dmNand_lorAll (a : DiffMask) (ms : List DiffMask) :
    nandFold a ms = dmNand a (lorAll ms) := by
  apply Nat.eq_of_testBit_eq
  intro i
  rw [testBit_nandFold, testBit_dmNand, testBit_lorAll,
    show (fun m : DiffMask => !(m.testBit i)) = (fun m : DiffMask => !((fun x : DiffMask => x.testBit i) m)) from rfl,
    all_not_eq_not_any]

/-! ## Data model of the server replication manager

Key spaces (spec section 3): global object/component keys, entity keys and
per-connection local keys are all modelled as naturals.  `Ref<DiffMask>` of
the shared crate is a shared mutable cell; we model the cells as a heap
`CellId → DiffMask` carried in the manager state, so that the aliasing
between a record's live mask, the mutation handler's registered mask and the
mask carried inside a queued update action is explicit. -/

abbrev GKey := Nat
abbrev EKey := Nat
abbrev LKey := Nat
abbrev CellId := Nat

/-- A replicate value (the `Ref<dyn Replicate<T>>` trait object).  Modelled
after the code the derive macro in shared/derive/src/replicate.rs generates:
a stable type id and the per-property payload byte strings, written in
declaration order; `write` emits all of them, `write_update` only those whose
diff-mask bit is set. -/
structure RepValue where
  type_id : Nat
  props : List (List Nat)
  deriving DecidableEq, Repr

/-- Full payload of a replicate value (the generated `write`). -/
def RepValue.writeBytes (v : RepValue) : List Nat :=
  v.props.foldl (fun acc p => acc ++ p) []

/-- Partial payload of a replicate value under a diff mask (the generated
`write_update`: a property is written iff its diff-mask bit is set). -/
def RepValue.writePartialBytes (v : RepValue) (mask : DiffMask) : List Nat :=
  (v.props.enum.foldl (fun acc ip =>
    if mask.testBit ip.1 then acc ++ ip.2 else acc) [])

/-- LocalityStatus of replicate_manager's records. -/
inductive LocalityStatus where
  | Creating
  | Created
  | Deleting
  deriving DecidableEq, Repr

/-- ReplicateRecord: per-connection per-object record (local key, the cell
holding the live diff mask, and the lifecycle status). -/
structure ReplicateRecord where
  local_key : LKey
  diff_mask_cell : CellId
  status : LocalityStatus
  deriving DecidableEq, Repr

/-- EntityRecord: local key, the entity's current component-key set (the
contents of the shared `components_ref` set, which the server inserts into
when a component is added), and the lifecycle status. -/
structure EntityRecord where
  local_key : LKey
  components : List GKey
  status : LocalityStatus
  deriving DecidableEq, Repr

/-- ReplicateAction of replicate_action.rs, with `Ref<DiffMask>` fields
replaced by heap cell ids. -/
inductive ReplicateAction where
  | CreateObject (g : GKey) (l : LKey) (v : RepValue)
  | DeleteReplicate (g : GKey) (l : LKey)
  | UpdateReplicate (g : GKey) (l : LKey) (mask : CellId) (v : RepValue)
  | AssignPawn (g : GKey) (l : LKey)
  | UnassignPawn (g : GKey) (l : LKey)
  | UpdatePawn (g : GKey) (l : LKey) (mask : CellId) (v : RepValue)
  | CreateEntity (e : EKey) (l : LKey) (comps : Option (List (GKey × LKey × RepValue)))
  | DeleteEntity (e : EKey) (l : LKey)
  | AssignPawnEntity (e : EKey) (l : LKey)
  | UnassignPawnEntity (e : EKey) (l : LKey)
  | AddComponent (el : LKey) (g : GKey) (l : LKey) (v : RepValue)
  deriving DecidableEq, Repr

/-- Modelled from the spec: the recycling local-key generator ("per-connection,
reused via a recycling generator"). -/
structure KeyGen where
  recycled : List LKey
  next : Nat
  deriving DecidableEq, Repr

/-- Generate a local key: reuse a recycled key if available. -/
def KeyGen.generate (g : KeyGen) : LKey × KeyGen :=
  match g.recycled with
  | k :: t => (k, ⟨t, g.next⟩)
  | [] => (g.next, ⟨[], g.next + 1⟩)

/-- Return a local key to the generator. -/
def KeyGen.recycle (g : KeyGen) (k : LKey) : KeyGen :=
  ⟨g.recycled ++ [k], g.next⟩

/-- The per-connection ReplicateManager state (replicate_manager.rs).  The
`heap`/`nextCell` pair models the `Ref<DiffMask>` cells; `mut_handler` models
the MutHandler's per-key registered mask (it always holds the same cell as
the record, established by `register_mask`). -/
structure RMState where
  nextCell : CellId
  heap : CellId → DiffMask
  rep_key_gen : KeyGen
  local_replicate_store : List (GKey × RepValue)
  local_to_global_replicate_key_map : List (LKey × GKey)
  replicate_records : List (GKey × ReplicateRecord)
  delayed_replicate_deletions : List GKey
  pawn_object_store : List GKey
  entity_key_gen : KeyGen
  local_entity_store : List (EKey × EntityRecord)
  local_to_global_entity_key_map : List (LKey × EKey)
  pawn_entity_store : List EKey
  delayed_entity_deletions : List EKey
  queued_messages : List ReplicateAction
  sent_messages : List (Nat × List ReplicateAction)
  sent_updates : List (Nat × List (GKey × CellId))
  last_update_packet_index : Nat
  last_last_update_packet_index : Nat
  last_popped_diff_mask : Option DiffMask
  last_popped_diff_mask_list : Option (List (GKey × DiffMask))

/-- Heap update at one cell. -/
def hupd (h : CellId → DiffMask) (c : CellId) (v : DiffMask) : CellId → DiffMask :=
  fun c' => if c' = c then v else h c'

/-- The empty manager state (ReplicateManager::new). -/
def RMState.new : RMState where
  nextCell := 0
  heap := fun _ => 0
  rep_key_gen := ⟨[], 0⟩
  local_replicate_store := []
  local_to_global_replicate_key_map := []
  replicate_records := []
  delayed_replicate_deletions := []
  pawn_object_store := []
  entity_key_gen := ⟨[], 0⟩
  local_entity_store := []
  local_to_global_entity_key_map := []
  pawn_entity_store := []
  delayed_entity_deletions := []
  queued_messages := []
  sent_messages := []
  sent_updates := []
  last_update_packet_index := 0
  last_last_update_packet_index := 0
  last_popped_diff_mask := none
  last_popped_diff_mask_list := none

/-- MutHandler::clear_replicate.  The MutHandler itself is not among the
sources; modelled from the spec ("the diff mask is held by both the record
and the mutation handler; the record owns it"): `register_mask` stores the
record's own cell at `replicate_init` and deregisters at cleanup, so the
registered mask is exactly the record's cell whenever the record exists. -/
def mhClear (st : RMState) (g : GKey) : RMState :=
  match alook st.replicate_records g with
  | some r => { st with heap := hupd st.heap r.diff_mask_cell 0 }
  | none => st

/-- MutHandler::set_replicate: overwrite the registered mask's contents.
Modelled from the spec, see `mhClear`. -/
def mhSet (st : RMState) (g : GKey) (m : DiffMask) : RMState :=
  match alook st.replicate_records g with
  | some r => { st with heap := hupd st.heap r.diff_mask_cell m }
  | none => st

/-- MutHandler::mutate_replicate: a property mutation marks one bit of the
registered live mask.  Modelled from the spec ("when a property of a shared
object mutates, the mutation handler sets bits in the connection's diff
mask"). -/
def mhMutate (st : RMState) (g : GKey) (idx : Nat) : RMState :=
  match alook st.replicate_records g with
  | some r =>
    { st with heap := hupd st.heap r.diff_mask_cell (st.heap r.diff_mask_cell ||| (1 <<< idx)) }
  | none => st

/-! ## Manager operations (replicate_manager.rs)

Operations whose Rust code can panic are `Option`-valued; `none` is the
panic. -/

/-- replicate_init: install store entry, local key, record with a fresh
zeroed diff-mask cell, and register the mask; panics on duplicate add. -/
def replicateInit (g : GKey) (v : RepValue) (status : LocalityStatus) (st : RMState) :
    Option (RMState × LKey) :=
  match alook st.local_replicate_store g with
  | some _ => none
  | none =>
    let gen := st.rep_key_gen.generate
    let cell := st.nextCell
    some ({ st with
      local_replicate_store := aset st.local_replicate_store g v
      rep_key_gen := gen.2
      local_to_global_replicate_key_map :=
        aset st.local_to_global_replicate_key_map gen.1 g
      heap := hupd st.heap cell 0
      replicate_records := aset st.replicate_records g ⟨gen.1, cell, status⟩
      nextCell := st.nextCell + 1 }, gen.1)

/-- replicate_cleanup: drop record, store entry, key mapping, recycle the
local key, deregister the mask and drop any pawn designation; a missing
record only warns. -/
def replicateCleanup (st : RMState) (g : GKey) : RMState :=
  match alook st.replicate_records g with
  | some r =>
    { st with
      replicate_records := adel st.replicate_records g
      local_replicate_store := adel st.local_replicate_store g
      local_to_global_replicate_key_map :=
        adel st.local_to_global_replicate_key_map r.local_key
      rep_key_gen := st.rep_key_gen.recycle r.local_key
      pawn_object_store := sdel st.pawn_object_store g }
  | none => st

/-- The free function replicate_delete: mark the record Deleting and enqueue
DeleteReplicate. -/
def replicateDelete (st : RMState) (g : GKey) (r : ReplicateRecord) : RMState :=
  { st with
    replicate_records := aset st.replicate_records g { r with status := .Deleting }
    queued_messages := st.queued_messages ++ [.DeleteReplicate g r.local_key] }

/-- The free function entity_delete: mark the entity Deleting and enqueue
DeleteEntity. -/
def entityDelete (st : RMState) (e : EKey) (er : EntityRecord) : RMState :=
  { st with
    local_entity_store := aset st.local_entity_store e { er with status := .Deleting }
    queued_messages := st.queued_messages ++ [.DeleteEntity e er.local_key] }

/-- add_object: init a Creating record and enqueue CreateObject. -/
def add_object (g : GKey) (v : RepValue) (st : RMState) : Option RMState :=
  match replicateInit g v .Creating st with
  | none => none
  | some p =>
    some { p.1 with queued_messages := p.1.queued_messages ++ [.CreateObject g p.2 v] }

/-- remove_pawn: drop the pawn designation and enqueue UnassignPawn; panics
if the key is not a pawn. -/
def remove_pawn (g : GKey) (st : RMState) : Option RMState :=
  if g ∈ st.pawn_object_store then
    let st1 := { st with pawn_object_store := sdel st.pawn_object_store g }
    match alook st1.replicate_records g with
    | some r =>
      some { st1 with queued_messages := st1.queued_messages ++ [.UnassignPawn g r.local_key] }
    | none => some st1
  else none

/-- remove_object: first unassign a pawn designation, then dispatch on the
record status (Creating defers into delayed deletions, Created enqueues
DeleteReplicate, Deleting is a no-op); panics when no record exists. -/
def remove_object (g : GKey) (st : RMState) : Option RMState :=
  match (if g ∈ st.pawn_object_store then remove_pawn g st else some st) with
  | none => none
  | some st0 =>
    match alook st0.replicate_records g with
    | some r =>
      match r.status with
      | .Creating =>
        some { st0 with delayed_replicate_deletions := sins st0.delayed_replicate_deletions g }
      | .Created => some (replicateDelete st0 g r)
      | .Deleting => some st0
    | none => none

/-- add_pawn: designate an existing object as pawn and enqueue AssignPawn;
a duplicate designation is silently skipped; panics when the object is not
in the local store. -/
def add_pawn (g : GKey) (st : RMState) : Option RMState :=
  if (alook st.local_replicate_store g).isSome then
    if g ∈ st.pawn_object_store then some st
    else
      let st1 := { st with pawn_object_store := sins st.pawn_object_store g }
      match alook st1.replicate_records g with
      | some r =>
        some { st1 with queued_messages := st1.queued_messages ++ [.AssignPawn g r.local_key] }
      | none => some st1
  else none

/-- add_entity: init all component records first, then the entity record in
Creating, and enqueue CreateEntity with no component list; panics on a
duplicate entity. -/
def add_entity (e : EKey) (comps : List (GKey × RepValue)) (st : RMState) :
    Option RMState :=
  if (alook st.local_entity_store e).isSome then none
  else
    match comps.foldlM (fun s kv => (replicateInit kv.1 kv.2 .Creating s).map (·.1)) st with
    | none => none
    | some st1 =>
      let gen := st1.entity_key_gen.generate
      some { st1 with
        entity_key_gen := gen.2
        local_to_global_entity_key_map := aset st1.local_to_global_entity_key_map gen.1 e
        local_entity_store := aset st1.local_entity_store e ⟨gen.1, comps.map (·.1), .Creating⟩
        queued_messages := st1.queued_messages ++ [.CreateEntity e gen.1 none] }

/-- remove_pawn_entity: drop the pawn-entity designation and enqueue
UnassignPawnEntity; panics when not designated, or designated without a
record. -/
def remove_pawn_entity (e : EKey) (st : RMState) : Option RMState :=
  if e ∈ st.pawn_entity_store then
    match alook st.local_entity_store e with
    | some er =>
      some { st with
        pawn_entity_store := sdel st.pawn_entity_store e
        queued_messages := st.queued_messages ++ [.UnassignPawnEntity e er.local_key] }
    | none => none
  else none

/-- add_pawn_entity: designate an entity as pawn; nonexistent entity or
duplicate designation only warns. -/
def add_pawn_entity (e : EKey) (st : RMState) : Option RMState :=
  if (alook st.local_entity_store e).isSome then
    if e ∈ st.pawn_entity_store then some st
    else
      match alook st.local_entity_store e with
      | some er =>
        some { st with
          pawn_entity_store := sins st.pawn_entity_store e
          queued_messages := st.queued_messages ++ [.AssignPawnEntity e er.local_key] }
      | none => none
  else some st

/-- remove_entity: unassign a pawn-entity designation, then dispatch on
entity status; the Created branch enqueues DeleteEntity and cascades: every
constituent component loses its pawn designation and its record is marked
Deleting.  A missing entity record is silently ignored. -/
def remove_entity (e : EKey) (st : RMState) : Option RMState :=
  match (if e ∈ st.pawn_entity_store then remove_pawn_entity e st else some st) with
  | none => none
  | some st0 =>
  match alook st0.local_entity_store e with
  | some er =>
    match er.status with
    | .Creating =>
      some { st0 with delayed_entity_deletions := sins st0.delayed_entity_deletions e }
    | .Created =>
      let st1 := entityDelete st0 e er
      some (er.components.foldl (fun s ck =>
        let s1 := { s with pawn_object_store := sdel s.pawn_object_store ck }
        match alook s1.replicate_records ck with
        | some r =>
          { s1 with replicate_records := aset s1.replicate_records ck { r with status := .Deleting } }
        | none => s1) st1)
    | .Deleting => some st0
  | none => some st0

/-- add_component: init the component record, record the component key in the
entity's component set (the server-side insertion into the shared
`components_ref`, modelled from the spec), and enqueue AddComponent only when
the entity is already Created; panics when the entity does not exist. -/
def add_component (e : EKey) (c : GKey) (v : RepValue) (st : RMState) : Option RMState :=
  match alook st.local_entity_store e with
  | none => none
  | some _ =>
    match replicateInit c v .Creating st with
    | none => none
    | some p =>
      match alook p.1.local_entity_store e with
      | none => none
      | some er =>
        let newComps := if c ∈ er.components then er.components else er.components ++ [c]
        let st2 := { p.1 with
          local_entity_store := aset p.1.local_entity_store e { er with components := newComps } }
        match er.status with
        | .Creating => some st2
        | .Created =>
          some { st2 with queued_messages := st2.queued_messages ++ [.AddComponent er.local_key c p.2 v] }
        | .Deleting => some st2

/-- collect_replicate_updates: scan records; a Created record with a
non-clear live mask enqueues UpdatePawn (for pawns) or UpdateReplicate, both
carrying the record's own live-mask cell (Ref::clone aliases). -/
def collect_replicate_updates (st : RMState) : RMState :=
  st.replicate_records.foldl (fun s kv =>
    if kv.2.status = .Created then
      if s.heap kv.2.diff_mask_cell ≠ 0 then
        match alook s.local_replicate_store kv.1 with
        | some v =>
          if kv.1 ∈ s.pawn_object_store then
            { s with queued_messages :=
                s.queued_messages ++ [.UpdatePawn kv.1 kv.2.local_key kv.2.diff_mask_cell v] }
          else
            { s with queued_messages :=
                s.queued_messages ++ [.UpdateReplicate kv.1 kv.2.local_key kv.2.diff_mask_cell v] }
        | none => s
      else s
    else s) st

/-- pop_create_replicate_diff_mask: save the record's live mask into
last_popped_diff_mask (when the record exists) and clear it through the
mutation handler. -/
def popCreateMask (st : RMState) (g : GKey) : RMState :=
  let st1 :=
    match alook st.replicate_records g with
    | some r => { st with last_popped_diff_mask := some (st.heap r.diff_mask_cell) }
    | none => st
  mhClear st1 g

/-- unpop_create_replicate_diff_mask: restore the live mask from
last_popped_diff_mask through the mutation handler. -/
def unpopCreateMask (st : RMState) (g : GKey) : RMState :=
  match st.last_popped_diff_mask with
  | some m => mhSet st g m
  | none => st

/-- process_replicate_update: clone the action's mask into a fresh locked
cell, record it in sent_updates[packet_index][g] (creating the per-packet map
and advancing the last-update indices when the packet is new), save the mask
into last_popped_diff_mask and clear the live mask.  Returns the locked
cell. -/
def processUpdate (i : Nat) (g : GKey) (mc : CellId) (st : RMState) : RMState × CellId :=
  let locked := st.nextCell
  let st1 := { st with nextCell := st.nextCell + 1, heap := hupd st.heap locked (st.heap mc) }
  let st2 :=
    match alook st1.sent_updates i with
    | none =>
      { st1 with
        sent_updates := aset st1.sent_updates i []
        last_last_update_packet_index := st1.last_update_packet_index
        last_update_packet_index := i }
    | some _ => st1
  let st3 :=
    match alook st2.sent_updates i with
    | some m => { st2 with sent_updates := aset st2.sent_updates i (aset m g locked) }
    | none => st2
  let st4 := { st3 with last_popped_diff_mask := some (st3.heap mc) }
  (mhClear st4 g, locked)

/-- undo_replicate_update: remove sent_updates[i][g] (dropping the emptied
per-packet map), rewind last_update_packet_index, restore the live mask from
last_popped_diff_mask, and return the record's live-mask cell; panics when
the record is gone. -/
def undoUpdate (i : Nat) (g : GKey) (st : RMState) : Option (RMState × CellId) :=
  let su :=
    match alook st.sent_updates i with
    | some m =>
      let m' := adel m g
      if m' = [] then adel st.sent_updates i else aset st.sent_updates i m'
    | none => st.sent_updates
  let st1 := { st with
               sent_updates := su
               last_update_packet_index := st.last_last_update_packet_index }
  let st2 :=
    match st1.last_popped_diff_mask with
    | some m => mhSet st1 g m
    | none => st1
  match alook st2.replicate_records g with
  | some r => some (st2, r.diff_mask_cell)
  | none => none

/-- The pop-time replacement step: a CreateEntity head is replaced by one
bearing the entity's current component list (panicking if the entity or a
component is uninitialized); every other head passes through. -/
def materializeCreateEntity (st : RMState) (msg0 : ReplicateAction) :
    Option (Option ReplicateAction) :=
  match msg0 with
  | .CreateEntity ge le _ =>
    match alook st.local_entity_store ge with
    | none => none
    | some er =>
      match er.components.mapM (fun ck =>
          match alook st.local_replicate_store ck, alook st.replicate_records ck with
          | some v, some r => some (ck, r.local_key, v)
          | _, _ => none) with
      | none => none
      | some lst => some (some (.CreateEntity ge le (some lst)))
  | _ => some none

/-- One step of the CreateEntity pop loop: record the component's live mask
(when its record exists) and clear it through the mutation handler. -/
def ceMaskFoldStep (acc : List (GKey × DiffMask) × RMState) (t : GKey × LKey × RepValue) :
    List (GKey × DiffMask) × RMState :=
  (match alook acc.2.replicate_records t.1 with
    | some r => acc.1 ++ [(t.1, acc.2.heap r.diff_mask_cell)]
    | none => acc.1,
   mhClear acc.2 t.1)

/-- The per-kind pop side effects, after the action has been recorded in
sent_messages: creates save-and-clear masks, updates lock a snapshot and
substitute the returned action. -/
def popEffects (i : Nat) (st1 : RMState) (message : ReplicateAction) :
    RMState × ReplicateAction :=
  match message with
  | .CreateObject g _ _ => (popCreateMask st1 g, message)
  | .AddComponent _ g _ _ => (popCreateMask st1 g, message)
  | .CreateEntity _ _ compsOpt =>
    match compsOpt with
    | some comps =>
      let acc := comps.foldl ceMaskFoldStep ([], st1)
      ({ acc.2 with last_popped_diff_mask_list := some acc.1 }, message)
    | none => (st1, message)
  | .UpdateReplicate g l mc v =>
    let p := processUpdate i g mc st1
    (p.1, .UpdateReplicate g l p.2 v)
  | .UpdatePawn g l mc v =>
    let p := processUpdate i g mc st1
    (p.1, .UpdatePawn g l p.2 v)
  | _ => (st1, message)

/-- pop_outgoing_action: drain the queue head, materialize a CreateEntity
head's component list, append the (possibly replaced) action to
sent_messages[packet_index], then run the per-kind side effects and return
the action to be written. -/
def pop_outgoing_action (i : Nat) (st : RMState) :
    Option (RMState × Option ReplicateAction) :=
  match st.queued_messages with
  | [] => some (st, none)
  | msg0 :: rest =>
    let stq := { st with queued_messages := rest }
    match materializeCreateEntity stq msg0 with
    | none => none
    | some repl =>
      let message := repl.getD msg0
      let newSent := aset stq.sent_messages i ((alook stq.sent_messages i).getD [] ++ [message])
      let st1 := { stq with sent_messages := newSent }
      let p := popEffects i st1 message
      some (p.1, some p.2)

/-- The sent_messages table after unpop removed the last entry recorded for
the packet (dropping the emptied per-packet list). -/
def unpopSentMessages (st : RMState) (i : Nat) : List (Nat × List ReplicateAction) :=
  match alook st.sent_messages i with
  | some l =>
    let l' := l.dropLast
    if l' = [] then adel st.sent_messages i else aset st.sent_messages i l'
  | none => st.sent_messages

/-- unpop_outgoing_action: pop the last entry of sent_messages[packet_index]
(dropping the emptied list), undo the per-kind mask side effects, and push an
action back at the head of the queue (for updates, one rebuilt around the
record's live mask cell). -/
def unpop_outgoing_action (i : Nat) (msg : ReplicateAction) (st : RMState) :
    Option RMState :=
  let st0 := { st with sent_messages := unpopSentMessages st i }
  match msg with
  | .CreateObject g _ _ =>
    some { (unpopCreateMask st0 g) with
      queued_messages := msg :: (unpopCreateMask st0 g).queued_messages }
  | .AddComponent _ g _ _ =>
    some { (unpopCreateMask st0 g) with
      queued_messages := msg :: (unpopCreateMask st0 g).queued_messages }
  | .CreateEntity _ _ _ =>
    let st1 :=
      match st0.last_popped_diff_mask_list with
      | some lst => lst.foldl (fun (s : RMState) (t : GKey × DiffMask) => mhSet s t.1 t.2) st0
      | none => st0
    some { st1 with queued_messages := msg :: st1.queued_messages }
  | .UpdateReplicate g l _ v =>
    match undoUpdate i g st0 with
    | none => none
    | some p =>
      some { p.1 with queued_messages := .UpdateReplicate g l p.2 v :: p.1.queued_messages }
  | .UpdatePawn g l _ v =>
    match undoUpdate i g st0 with
    | none => none
    | some p =>
      some { p.1 with queued_messages := .UpdatePawn g l p.2 v :: p.1.queued_messages }
  | _ => some { st0 with queued_messages := msg :: st0.queued_messages }

/-- The bundled-component promotion loop of a delivered CreateEntity: the
Rust code pops the list from the back, promoting each bundled component's
record to Created (panicking when a record is missing). -/
def promoteComponents (comps : List (GKey × LKey × RepValue)) (st : RMState) :
    Option RMState :=
  comps.reverse.foldlM (fun (s : RMState) (t : GKey × LKey × RepValue) =>
    match alook s.replicate_records t.1 with
    | some r => some { s with replicate_records := aset s.replicate_records t.1 { r with status := .Created } }
    | none => none) st

/-- The post-promotion scan of a delivered CreateEntity: any component of
the entity's current set whose record is still Creating gets an AddComponent
enqueued. -/
def enqueueMissingComponents (elk : LKey) (comps : List GKey) (st : RMState) :
    Option RMState :=
  comps.foldlM (fun (s : RMState) (ck : GKey) =>
    match alook s.replicate_records ck with
    | none => none
    | some cr =>
      if cr.status = .Creating then
        match alook s.local_replicate_store ck with
        | some cv => some { s with queued_messages := s.queued_messages ++ [.AddComponent elk ck cr.local_key cv] }
        | none => none
      else some s) st

/-- Promotion of the bundled component list when a CreateEntity that carried
one is delivered; a CreateEntity delivered without a list promotes nothing. -/
def promoteOpt (compsOpt : Option (List (GKey × LKey × RepValue))) (st : RMState) :
    Option RMState :=
  match compsOpt with
  | some comps => promoteComponents comps st
  | none => some st

/-- One delivered action of notify_packet_delivered; the second component
accumulates the keys whose records are to be cleaned up after the loop. -/
def deliverMsg (i : Nat) (acc : RMState × List GKey) (msg : ReplicateAction) :
    Option (RMState × List GKey) :=
  let st := acc.1
  match msg with
  | .CreateObject g _ _ =>
    match alook st.replicate_records g with
    | none => none
    | some r =>
      if g ∈ st.delayed_replicate_deletions then
        some (replicateDelete
          { st with delayed_replicate_deletions := sdel st.delayed_replicate_deletions g }
          g r, acc.2)
      else
        some ({ st with replicate_records := aset st.replicate_records g { r with status := .Created } }, acc.2)
  | .DeleteReplicate g _ => some (st, acc.2 ++ [g])
  | .UpdateReplicate _ _ _ _ => some ({ st with sent_updates := adel st.sent_updates i }, acc.2)
  | .UpdatePawn _ _ _ _ => some ({ st with sent_updates := adel st.sent_updates i }, acc.2)
  | .AssignPawn _ _ => some acc
  | .UnassignPawn _ _ => some acc
  | .CreateEntity ge _ compsOpt =>
    match alook st.local_entity_store ge with
    | none => none
    | some er =>
      if ge ∈ st.delayed_entity_deletions then
        some (entityDelete
          { st with delayed_entity_deletions := sdel st.delayed_entity_deletions ge }
          ge er, acc.2)
      else
        match promoteOpt compsOpt
            { st with local_entity_store := aset st.local_entity_store ge { er with status := .Created } } with
        | none => none
        | some st2 =>
          match enqueueMissingComponents er.local_key er.components st2 with
          | none => none
          | some st3 => some (st3, acc.2)
  | .DeleteEntity ge l =>
    match alook st.local_entity_store ge with
    | none => none
    | some er =>
      some ({ st with
        local_entity_store := adel st.local_entity_store ge
        local_to_global_entity_key_map := adel st.local_to_global_entity_key_map l
        entity_key_gen := st.entity_key_gen.recycle l
        pawn_entity_store := sdel st.pawn_entity_store ge }, acc.2 ++ er.components)
  | .AssignPawnEntity _ _ => some acc
  | .UnassignPawnEntity _ _ => some acc
  | .AddComponent _ g _ _ =>
    match alook st.replicate_records g with
    | none => none
    | some r =>
      if g ∈ st.delayed_replicate_deletions then
        some (replicateDelete
          { st with delayed_replicate_deletions := sdel st.delayed_replicate_deletions g }
          g r, acc.2)
      else
        some ({ st with replicate_records := aset st.replicate_records g { r with status := .Created } }, acc.2)

/-- notify_packet_delivered: remove sent_messages[i], process each delivered
action in order, then clean up every record scheduled for deletion. -/
def notify_packet_delivered (i : Nat) (st : RMState) : Option RMState :=
  match alook st.sent_messages i with
  | none => some st
  | some msgs =>
    match msgs.foldlM (deliverMsg i) ({ st with sent_messages := adel st.sent_messages i }, []) with
    | none => none
    | some p => some (p.2.foldl replicateCleanup p.1)

/-- The wrapping-u16 walk of notify_packet_dropped: the packet indices
strictly between `i` and `last` in ascending wrapping order. -/
def betweenIndices (i last : Nat) : List Nat :=
  (List.range ((last + 65536 - (i + 1) % 65536) % 65536)).map
    (fun k => ((i % 65536) + 1 + k) % 65536)

/-- The diff-mask snapshots recorded for key `g` on the packets strictly
between a dropped packet `i` and the latest update packet. -/
def betweenCells (st : RMState) (i : Nat) (g : GKey) : List CellId :=
  (betweenIndices i st.last_update_packet_index).filterMap
    (fun p => (alook st.sent_updates p).bind (fun m => alook m g))

/-- One dropped update action of notify_packet_dropped: reconstruct the
still-unsent mask from the packet's snapshot, nand away every snapshot for
the same key recorded on a packet strictly between the dropped one and the
latest update packet, and or the result into the live mask. -/
def dropUpdate (i : Nat) (st : RMState) (g : GKey) : RMState :=
  match alook st.sent_updates i with
  | none => st
  | some m =>
    match alook m g with
    | none => st
    | some cell =>
      let newMask :=
        if i = st.last_update_packet_index then st.heap cell
        else nandFold (st.heap cell) ((betweenCells st i g).map st.heap)
      match alook st.replicate_records g with
      | none => st
      | some r =>
        { st with heap := hupd st.heap r.diff_mask_cell (st.heap r.diff_mask_cell ||| newMask) }

/-- One dropped action of notify_packet_dropped: guaranteed-delivery actions
are re-enqueued at the tail, update actions feed `dropUpdate`. -/
def dropStep (i : Nat) (st : RMState) (msg : ReplicateAction) : RMState :=
  match msg with
  | .UpdateReplicate g _ _ _ => dropUpdate i st g
  | .UpdatePawn g _ _ _ => dropUpdate i st g
  | _ => { st with queued_messages := st.queued_messages ++ [msg] }

/-- notify_packet_dropped: process each action of the dropped packet, then
drop the packet's sent_updates and sent_messages entries. -/
def notify_packet_dropped (i : Nat) (st : RMState) : RMState :=
  match alook st.sent_messages i with
  | none => st
  | some msgs =>
    let st1 := msgs.foldl (dropStep i) st
    { st1 with
      sent_updates := adel st1.sent_updates i
      sent_messages := adel st1.sent_messages i }

/-! ## Reachability

The public operations of one connection's manager, used to state invariants
over every reachable per-connection state. -/

/-- One public operation on the manager (the `mutate` constructor is the
mutation-handler fan-out that marks a diff-mask bit). -/
inductive Op where
  | addObject (g : GKey) (v : RepValue)
  | removeObject (g : GKey)
  | addPawn (g : GKey)
  | removePawn (g : GKey)
  | addEntity (e : EKey) (comps : List (GKey × RepValue))
  | removeEntity (e : EKey)
  | addPawnEntity (e : EKey)
  | removePawnEntity (e : EKey)
  | addComponent (e : EKey) (c : GKey) (v : RepValue)
  | collect
  | pop (i : Nat)
  | unpop (i : Nat) (a : ReplicateAction)
  | delivered (i : Nat)
  | dropped (i : Nat)
  | mutate (g : GKey) (idx : Nat)

/-- Apply one public operation; `none` is a Rust panic. -/
def applyOp (op : Op) (st : RMState) : Option RMState :=
  match op with
  | .addObject g v => add_object g v st
  | .removeObject g => remove_object g st
  | .addPawn g => add_pawn g st
  | .removePawn g => remove_pawn g st
  | .addEntity e comps => add_entity e comps st
  | .removeEntity e => remove_entity e st
  | .addPawnEntity e => add_pawn_entity e st
  | .removePawnEntity e => remove_pawn_entity e st
  | .addComponent e c v => add_component e c v st
  | .collect => some (collect_replicate_updates st)
  | .pop i => (pop_outgoing_action i st).map (·.1)
  | .unpop i a => unpop_outgoing_action i a st
  | .delivered i => notify_packet_delivered i st
  | .dropped i => some (notify_packet_dropped i st)
  | .mutate g idx => some (mhMutate st g idx)

/-- Run a list of operations from the empty manager. -/
def runOps (ops : List Op) : Option RMState :=
  ops.foldlM (fun s op => applyOp op s) RMState.new

/-! ## Client handshake state machine (client/src/client.rs) -/

/-- ConnectionState of the client. -/
inductive ConnectionState where
  | AwaitingChallengeResponse
  | AwaitingConnectResponse
  | Connected
  deriving DecidableEq, Repr

/-- The pre-connection part of the Client state.  The tick manager is not
among the sources; modelled from the spec ("seed the tick manager with server
tick") as the recorded initial tick. -/
structure ClientState where
  connection_replicate : ConnectionState
  pre_connection_timestamp : Option Nat
  pre_connection_digest : Option (List Nat)
  initial_tick : Option Nat
  deriving DecidableEq, Repr

/-- The ServerChallengeResponse arm of Client::receive, with the packet
payload already split into the leading server tick, the echoed timestamp and
the remaining bytes; the code reads exactly 32 digest bytes from the
remainder (fewer available is the modelled reader panic). -/
def receiveServerChallengeResponse (st : ClientState) (server_tick : Nat)
    (payload_timestamp : Nat) (rest : List Nat) : Option ClientState :=
  if st.connection_replicate = .AwaitingChallengeResponse then
    match st.pre_connection_timestamp with
    | some myTs =>
      if myTs = payload_timestamp then
        if rest.length < 32 then none
        else
          some { st with
            pre_connection_digest := some (rest.take 32)
            initial_tick := some server_tick
            connection_replicate := .AwaitingConnectResponse }
      else some st
    | none => some st
  else some st

/-! ## Property wrapper (shared/src/protocol/property.rs) -/

/-- PropertyMutator handle; `mutate` records the mutated index (the real
handle forwards to the mutation handler, which marks the diff-mask bit). -/
structure PropertyMutator where
  mutated : List Nat
  deriving DecidableEq, Repr

/-- PropertyMutator::mutate. -/
def PropertyMutator.mutate (m : PropertyMutator) (idx : Nat) : PropertyMutator :=
  ⟨m.mutated ++ [idx]⟩

/-- Property of an Component/Message. -/
structure Property (T : Type) where
  inner : T
  mutator : Option PropertyMutator
  mutator_index : Nat

/-- DerefMut for Property: notify the mutator (when set) that this index will
mutate — unconditionally, before any value is written. -/
def Property.derefMutNotify {T : Type} (p : Property T) : Property T :=
  match p.mutator with
  | some m => { p with mutator := some (m.mutate p.mutator_index) }
  | none => p

/-- A write through DerefMut: notify, then store the new inner value (the
notification does not depend on the stored value). -/
def Property.derefMutSet {T : Type} (p : Property T) (v : T) : Property T :=
  { p.derefMutNotify with inner := v }

/-- Property::mirror: `**self = (**other).clone()` — a write through
DerefMut of the other property's inner value. -/
def Property.mirror {T : Type} (p other : Property T) : Property T :=
  p.derefMutSet other.inner

/-- AddAssign for Property: `*self.deref_mut() += rhs.inner`. -/
def Property.addAssign {T : Type} [Add T] (p rhs : Property T) : Property T :=
  p.derefMutSet (p.inner + rhs.inner)

/-- MulAssign (by a scalar) for Property: `*self.deref_mut() *= rhs`. -/
def Property.mulAssign {T S : Type} [HMul T S T] (p : Property T) (rhs : S) : Property T :=
  p.derefMutSet (p.inner * rhs)

/-! ## Bit-level serde and the entity properties
(shared/src/protocol/entity_property.rs)

The bit codec itself is not among the sources; modelled from the spec
("variable-length integers encode 1+N bits where N is the configured field
width; they are self-delimiting"): blocks of N data bits (least significant
block first) each followed by one continuation bit. -/

/-- The one opaque serde error kind. -/
inductive SerdeErr where
  | serdeErr
  deriving DecidableEq, Repr

/-- A bit reader over the remaining bits. -/
abbrev BitReader := List Bool

/-- Read `n` bits, least significant first.  Modelled from the spec. -/
def readBits : Nat → BitReader → Except SerdeErr (Nat × BitReader)
  | 0, r => .ok (0, r)
  | _ + 1, [] => .error .serdeErr
  | n + 1, b :: r => do
    let p ← readBits n r
    .ok ((if b then 1 else 0) + 2 * p.1, p.2)

/-- Decode of UnsignedVariableInteger with field width `w`, with fuel.
Modelled from the spec. -/
def uviDeAux (w : Nat) : Nat → BitReader → Except SerdeErr (Nat × BitReader)
  | 0, _ => .error .serdeErr
  | fuel + 1, r => do
    let p ← readBits w r
    match p.2 with
    | [] => .error .serdeErr
    | c :: r2 =>
      if c then do
        let q ← uviDeAux w fuel r2
        .ok (p.1 + (2 ^ w) * q.1, q.2)
      else .ok (p.1, r2)

/-- UnsignedVariableInteger::de.  Modelled from the spec. -/
def uviDe (w : Nat) (r : BitReader) : Except SerdeErr (Nat × BitReader) :=
  uviDeAux w (r.length + 1) r

/-- Decode of Option NetEntity: a presence bit, then the 16-bit net entity.
Modelled from the spec (`net entity` is the u16 wire form of an entity
reference). -/
def readOptionNetEntity (r : BitReader) : Except SerdeErr (Option Nat × BitReader) :=
  match r with
  | [] => .error .serdeErr
  | b :: r1 =>
    if b then do
      let p ← readBits 16 r1
      .ok (some p.1, p.2)
    else .ok (none, r1)

/-- EntityHandle is a dense id. -/
abbrev EntityHandle := Nat

/-- EntityProperty: a Property wrapping an optional entity handle. -/
structure EntityProperty where
  handle_prop : Property (Option EntityHandle)

/-- EntityProperty::read (&mut self): decode an Option NetEntity, convert it
through the handle converter, and store it through DerefMut.  The first
component is the Rust return value; the next two are the final contents of
the &mut arguments. -/
def EntityProperty.read (p : EntityProperty) (r : BitReader)
    (conv : Nat → EntityHandle) : Except SerdeErr PUnit × EntityProperty × BitReader :=
  match readOptionNetEntity r with
  | .error e => (.error e, p, r)
  | .ok (some ne, r1) => (.ok ⟨⟩, ⟨p.handle_prop.derefMutSet (some (conv ne))⟩, r1)
  | .ok (none, r1) => (.ok ⟨⟩, ⟨p.handle_prop.derefMutSet none⟩, r1)

/-- VecDequeEntityProperty: a deque of entity properties. -/
structure VecDequeEntityProperty where
  elems : List EntityProperty

/-- VecDequeEntityProperty::read (&mut self): decode the length prefix,
fail when it differs from the current element count — before any element is
read — otherwise read each element in place, stopping at the first element
error. -/
def VecDequeEntityProperty.read (p : VecDequeEntityProperty) (r : BitReader)
    (conv : Nat → EntityHandle) :
    Except SerdeErr PUnit × VecDequeEntityProperty × BitReader :=
  match uviDe 5 r with
  | .error e => (.error e, p, r)
  | .ok (n, r1) =>
    if n ≠ p.elems.length then (.error .serdeErr, p, r1)
    else
      let step := fun (acc : Except SerdeErr PUnit × List EntityProperty × BitReader)
          (e : EntityProperty) =>
        match acc.1 with
        | .error err => (.error err, acc.2.1 ++ [e], acc.2.2)
        | .ok _ =>
          let res := e.read acc.2.2 conv
          (res.1, acc.2.1 ++ [res.2.1], res.2.2)
      let out := p.elems.foldl step (.ok ⟨⟩, [], r1)
      (out.1, ⟨out.2.1⟩, out.2.2)

/-! ## Packet writer and write_replicate_action

The server-side PacketWriter struct is not among the sources (only the
client's is); modelled from the spec and from the client twin in
client/src/packet_writer.rs: a byte buffer for replication actions, the
per-packet action counter (a wrapping u8), and the byte count contributed by
the other managers sharing the packet. -/

/-- MTU_SIZE.  Modelled from the spec ("typical ~508 bytes including
header"). -/
def MTU_SIZE : Nat := 508

/-- The server packet writer state.  Modelled from the spec, see above. -/
structure PacketWriter where
  replicate_working_bytes : List Nat
  replicate_action_count : Nat
  other_bytes : Nat
  deriving DecidableEq, Repr

/-- PacketWriter::bytes_number. -/
def PacketWriter.bytes_number (w : PacketWriter) : Nat :=
  w.replicate_working_bytes.length + w.other_bytes

/-- Big-endian bytes of a u16. -/
def u16be (n : Nat) : List Nat :=
  [n / 256 % 256, n % 256]

/-- DiffMask::write: the mask's bytes with trailing zero bytes omitted.
Modelled from the spec. -/
def maskBytes : DiffMask → List Nat
  | 0 => []
  | m + 1 => ((m + 1) % 256) :: maskBytes ((m + 1) / 256)

/-- ReplicateActionType discriminant byte (1-byte enum, declaration order). -/
def actionTypeByte : ReplicateAction → Nat
  | .CreateObject _ _ _ => 0
  | .DeleteReplicate _ _ => 1
  | .UpdateReplicate _ _ _ _ => 2
  | .AssignPawn _ _ => 3
  | .UnassignPawn _ _ => 4
  | .UpdatePawn _ _ _ _ => 5
  | .CreateEntity _ _ _ => 6
  | .DeleteEntity _ _ => 7
  | .AssignPawnEntity _ _ => 8
  | .UnassignPawnEntity _ _ => 9
  | .AddComponent _ _ _ _ => 10

/-- The replicate_total_bytes assembled by write_replicate_action: the type
byte, the per-kind header and the payload.  `manifest` maps a type id to its
naia id; `heap` dereferences mask cells.  `none` is the more-than-255
components panic of the CreateEntity arm. -/
def encodeAction (manifest : Nat → Nat) (heap : CellId → DiffMask) :
    ReplicateAction → Option (List Nat)
  | .CreateObject g l v =>
    some (actionTypeByte (.CreateObject g l v) :: (u16be (manifest v.type_id) ++ u16be l ++ v.writeBytes))
  | .DeleteReplicate g l =>
    some (actionTypeByte (.DeleteReplicate g l) :: u16be l)
  | .UpdateReplicate g l mc v =>
    some (actionTypeByte (.UpdateReplicate g l mc v) :: (u16be l ++ maskBytes (heap mc) ++ v.writePartialBytes (heap mc)))
  | .AssignPawn g l => some (actionTypeByte (.AssignPawn g l) :: u16be l)
  | .UnassignPawn g l => some (actionTypeByte (.UnassignPawn g l) :: u16be l)
  | .UpdatePawn g l mc v =>
    some (actionTypeByte (.UpdatePawn g l mc v) :: (u16be l ++ v.writeBytes))
  | .CreateEntity e l compsOpt =>
    match compsOpt with
    | some comps =>
      if comps.length > 255 then none
      else
        some (actionTypeByte (.CreateEntity e l compsOpt) :: (u16be l ++ [comps.length] ++
          comps.foldl (fun acc t => acc ++ u16be (manifest t.2.2.type_id) ++ u16be t.2.1 ++ t.2.2.writeBytes) []))
    | none => some (actionTypeByte (.CreateEntity e l compsOpt) :: (u16be l ++ [0]))
  | .DeleteEntity e l => some (actionTypeByte (.DeleteEntity e l) :: u16be l)
  | .AssignPawnEntity e l => some (actionTypeByte (.AssignPawnEntity e l) :: u16be l)
  | .UnassignPawnEntity e l => some (actionTypeByte (.UnassignPawnEntity e l) :: u16be l)
  | .AddComponent el g l v =>
    some (actionTypeByte (.AddComponent el g l v) :: (u16be el ++ u16be (manifest v.type_id) ++ u16be l ++ v.writeBytes))

/-- write_replicate_action: assemble the action's bytes, then append them and
bump the (wrapping u8) action counter only when the hypothetical payload —
including the 2-byte manager header if this is the packet's first replicate
action — stays strictly below MTU_SIZE and the counter is not already 255;
otherwise report false and leave the writer untouched. -/
def write_replicate_action (w : PacketWriter) (manifest : Nat → Nat)
    (heap : CellId → DiffMask) (msg : ReplicateAction) : Option (PacketWriter × Bool) :=
  match encodeAction manifest heap msg with
  | none => none
  | some bytes =>
    let hyp := w.bytes_number + bytes.length + (if w.replicate_action_count = 0 then 2 else 0)
    if hyp < MTU_SIZE then
      if w.replicate_action_count = 255 then some (w, false)
      else
        some ({ w with
          replicate_action_count := (w.replicate_action_count + 1) % 256
          replicate_working_bytes := w.replicate_working_bytes ++ bytes }, true)
    else some (w, false)

/-! ## Claims about the handshake, the property wrapper and the codec -/

/-- C8: while the client is AwaitingChallengeResponse with a stored
pre-connection timestamp, a ServerChallengeResponse echoing that timestamp
stores the 32-byte digest, seeds the tick manager with the received server
tick and advances to AwaitingConnectResponse; a response with any other
timestamp leaves the state, digest and tick manager unchanged. -/
theorem c8_challenge_response (st : ClientState) (tick ts : Nat) (rest : List Nat)
    (hstate : st.connection_replicate = .AwaitingChallengeResponse)
    (hts : st.pre_connection_timestamp = some ts)
    (hlen : 32 ≤ rest.length) :
    (receiveServerChallengeResponse st tick ts rest =
      some { st with
        pre_connection_digest := some (rest.take 32)
        initial_tick := some tick
        connection_replicate := .AwaitingConnectResponse }
     ∧ (rest.take 32).length = 32)
    ∧ ∀ ts', ts' ≠ ts → receiveServerChallengeResponse st tick ts' rest = some st := by
  refine ⟨⟨?_, ?_⟩, ?_⟩
  · simp [receiveServerChallengeResponse, hstate, hts, Nat.not_lt.mpr hlen]
  · simp [List.length_take]
    omega
  · intro ts' hne
    simp [receiveServerChallengeResponse, hstate, hts, Ne.symm hne]

/-- Witness for C8 at a concrete client state and payload. -/
theorem c8_challenge_response_witness :
    (receiveServerChallengeResponse
        ⟨.AwaitingChallengeResponse, some 77, none, none⟩ 42 77 (List.replicate 32 171) =
      some ⟨.AwaitingConnectResponse, some 77, some (List.replicate 32 171), some 42⟩)
    ∧ receiveServerChallengeResponse
        ⟨.AwaitingChallengeResponse, some 77, none, none⟩ 42 78 (List.replicate 32 171) =
      some ⟨.AwaitingChallengeResponse, some 77, none, none⟩ := by
  have h := c8_challenge_response ⟨.AwaitingChallengeResponse, some 77, none, none⟩
    42 77 (List.replicate 32 171) rfl rfl (by simp)
  refine ⟨?_, ?_⟩
  · have h1 := h.1.1
    simpa using h1
  · exact h.2 78 (by decide)

/-- C9: whenever a Property's mutator is set, a write through DerefMut —
hence mirror, AddAssign and MulAssign — invokes mutate on the mutator index
unconditionally, also when the written value equals the current one. -/
theorem c9_deref_mut_marks_dirty {T : Type} [Add T] [HMul T Nat T]
    (p other : Property T) (m : PropertyMutator) (v : T) (s : Nat)
    (hm : p.mutator = some m) :
    (p.derefMutSet v).mutator = some (m.mutate p.mutator_index)
    ∧ (p.derefMutSet v).inner = v
    ∧ (p.derefMutSet p.inner).mutator = some (m.mutate p.mutator_index)
    ∧ (p.derefMutSet p.inner).inner = p.inner
    ∧ (p.mirror other).mutator = some (m.mutate p.mutator_index)
    ∧ (p.addAssign other).mutator = some (m.mutate p.mutator_index)
    ∧ (p.mulAssign s).mutator = some (m.mutate p.mutator_index) := by
  simp [Property.derefMutSet, Property.derefMutNotify, Property.mirror,
    Property.addAssign, Property.mulAssign, hm]

/-- Witness for C9 on a Nat-valued property whose written value equals the
stored one. -/
theorem c9_deref_mut_marks_dirty_witness :
    ((Property.mk (5 : Nat) (some ⟨[]⟩) 3).derefMutSet 5).mutator = some ⟨[3]⟩
    ∧ ((Property.mk (5 : Nat) (some ⟨[]⟩) 3).derefMutSet 5).inner = 5 := by
  have h := c9_deref_mut_marks_dirty (Property.mk (5 : Nat) (some ⟨[]⟩) 3)
    (Property.mk (7 : Nat) none 0) ⟨[]⟩ 5 2 rfl
  exact ⟨h.1, h.2.1⟩

/-- C10: VecDequeEntityProperty::read fails whenever the decoded length
prefix differs from the current element count, and the deque is unchanged
because the check precedes any element read. -/
theorem c10_vecdeque_length_check (p : VecDequeEntityProperty) (r r1 : BitReader)
    (conv : Nat → EntityHandle) (n : Nat)
    (hde : uviDe 5 r = .ok (n, r1)) (hne : n ≠ p.elems.length) :
    VecDequeEntityProperty.read p r conv = (.error .serdeErr, p, r1) := by
  simp [VecDequeEntityProperty.read, hde, hne]

/-- Witness for C10: a length prefix of 2 against a single-element deque. -/
theorem c10_vecdeque_length_check_witness :
    VecDequeEntityProperty.read ⟨[⟨⟨none, none, 0⟩⟩]⟩
        [false, true, false, false, false, false] (fun x => x) =
      (.error .serdeErr, ⟨[⟨⟨none, none, 0⟩⟩]⟩, []) := by
  exact c10_vecdeque_length_check ⟨[⟨⟨none, none, 0⟩⟩]⟩
    [false, true, false, false, false, false] [] (fun x => x) 2 (by rfl) (by decide)

/-! ## C6: the per-packet writing policy -/

/-- C6 (amended): write_replicate_action appends the encoded action and
returns true exactly when the hypothetical payload — the buffered bytes plus
the encoded action plus the 2-byte manager header on the packet's first
action — stays strictly below MTU_SIZE and fewer than 255 actions have been
written; otherwise it returns false and leaves the writer unchanged. -/
theorem c6_write_action_policy (w : PacketWriter) (manifest : Nat → Nat)
    (heap : CellId → DiffMask) (msg : ReplicateAction) (bytes : List Nat)
    (henc : encodeAction manifest heap msg = some bytes)
    (hcount : w.replicate_action_count ≤ 255) :
    ∃ res : PacketWriter × Bool,
      write_replicate_action w manifest heap msg = some res
      ∧ (res.2 = true ↔
          (w.bytes_number + bytes.length
              + (if w.replicate_action_count = 0 then 2 else 0) < MTU_SIZE
           ∧ w.replicate_action_count < 255))
      ∧ (res.2 = false → res.1 = w)
      ∧ (res.2 = true →
          res.1.replicate_working_bytes = w.replicate_working_bytes ++ bytes
          ∧ res.1.replicate_action_count = w.replicate_action_count + 1
          ∧ res.1.other_bytes = w.other_bytes) := by
  unfold write_replicate_action
  rw [henc]
  by_cases hfit : w.bytes_number + bytes.length
      + (if w.replicate_action_count = 0 then 2 else 0) < MTU_SIZE
  · by_cases hfull : w.replicate_action_count = 255
    · refine ⟨(w, false), ?_⟩
      simp [hfit, hfull]
    · refine ⟨({ w with
          replicate_action_count := (w.replicate_action_count + 1) % 256
          replicate_working_bytes := w.replicate_working_bytes ++ bytes }, true), ?_⟩
      have hlt : w.replicate_action_count + 1 < 256 := by omega
      simp [hfit, hfull, Nat.mod_eq_of_lt hlt]
      omega
  · refine ⟨(w, false), ?_⟩
    simp [hfit]

/-- Witness for C6 at a concrete writer with room for the action. -/
theorem c6_write_action_policy_witness :
    ∃ res : PacketWriter × Bool,
      write_replicate_action ⟨[], 0, 0⟩ (fun t => t) (fun _ => 0) (.DeleteReplicate 0 9) = some res
      ∧ res.2 = true
      ∧ res.1.replicate_working_bytes = [1, 0, 9] := by
  obtain ⟨res, hw, hiff, _, htrue⟩ := c6_write_action_policy ⟨[], 0, 0⟩ (fun t => t)
    (fun _ => 0) (.DeleteReplicate 0 9) [1, 0, 9] (by decide) (by decide)
  have hres2 : res.2 = true := hiff.mpr (by constructor <;> decide)
  exact ⟨res, hw, hres2, (htrue hres2).1⟩

/-- C6 counterexample: with 505 bytes buffered and one action written, a
3-byte DeleteReplicate makes the hypothetical payload exactly MTU_SIZE; the
claim's would-not-exceed condition holds (508 is not more than 508, and
fewer than 255 actions were written) yet the writer refuses. -/
theorem c6_write_action_boundary_cex :
    write_replicate_action ⟨[], 1, 505⟩ (fun t => t) (fun _ => 0) (.DeleteReplicate 0 0) =
      some (⟨[], 1, 505⟩, false)
    ∧ encodeAction (fun t => t) (fun _ => 0) (.DeleteReplicate 0 0) = some [1, 0, 0]
    ∧ PacketWriter.bytes_number ⟨[], 1, 505⟩ + 3 ≤ MTU_SIZE
    ∧ (1 : Nat) < 255 := by
  refine ⟨by decide, by decide, by decide, by decide⟩

/-! ## C5: remove_object status dispatch -/

/-- C5 (amended): apart from the UnassignPawn enqueued first when the key is
currently designated a pawn, remove_object acts by record status: Creating
defers — nothing else is enqueued, the key joins the delayed deletions and
the record is unchanged; Created enqueues DeleteReplicate and moves the
record to Deleting; Deleting changes nothing else.  On acknowledgement of
the packet that carried the CreateObject of a delayed-deleted key, the
DeleteReplicate is enqueued and the status moves to Deleting. -/
theorem c5_remove_object_dispatch (st : RMState) (g : GKey) (r : ReplicateRecord)
    (hr : alook st.replicate_records g = some r) :
    (r.status = .Creating →
      (remove_object g st).map (fun s =>
          (s.queued_messages, s.delayed_replicate_deletions, s.replicate_records))
        = some (st.queued_messages ++
            (if g ∈ st.pawn_object_store then [.UnassignPawn g r.local_key] else []),
          sins st.delayed_replicate_deletions g, st.replicate_records))
    ∧ (r.status = .Created →
      (remove_object g st).map (fun s =>
          (s.queued_messages, alook s.replicate_records g, s.delayed_replicate_deletions))
        = some ((st.queued_messages ++
            (if g ∈ st.pawn_object_store then [.UnassignPawn g r.local_key] else []))
            ++ [.DeleteReplicate g r.local_key],
          some { r with status := .Deleting }, st.delayed_replicate_deletions))
    ∧ (r.status = .Deleting →
      (remove_object g st).map (fun s =>
          (s.queued_messages, s.replicate_records, s.delayed_replicate_deletions,
            s.sent_messages, s.sent_updates))
        = some (st.queued_messages ++
            (if g ∈ st.pawn_object_store then [.UnassignPawn g r.local_key] else []),
          st.replicate_records, st.delayed_replicate_deletions,
          st.sent_messages, st.sent_updates))
    ∧ (∀ (st2 : RMState) (i : Nat) (l : LKey) (v : RepValue) (r2 : ReplicateRecord),
        alook st2.sent_messages i = some [.CreateObject g l v] →
        g ∈ st2.delayed_replicate_deletions →
        alook st2.replicate_records g = some r2 →
        (notify_packet_delivered i st2).map (fun s =>
            (s.queued_messages, alook s.replicate_records g,
              decide (g ∈ s.delayed_replicate_deletions)))
          = some (st2.queued_messages ++ [.DeleteReplicate g r2.local_key],
            some { r2 with status := .Deleting }, false)) := by
  refine ⟨?_, ?_, ?_, ?_⟩
  · intro hstat
    by_cases hp : g ∈ st.pawn_object_store
    · simp [remove_object, remove_pawn, hp, hr, hstat]
    · simp [remove_object, hp, hr, hstat]
  · intro hstat
    by_cases hp : g ∈ st.pawn_object_store
    · simp [remove_object, remove_pawn, hp, hr, hstat, replicateDelete, alook_aset_self]
    · simp [remove_object, hp, hr, hstat, replicateDelete, alook_aset_self]
  · intro hstat
    by_cases hp : g ∈ st.pawn_object_store
    · simp [remove_object, remove_pawn, hp, hr, hstat]
    · simp [remove_object, hp, hr, hstat]
  · intro st2 i l v r2 hsent hdel hr2
    simp [notify_packet_delivered, hsent, deliverMsg, hr2, hdel, replicateDelete,
      alook_aset_self, not_mem_sdel_self]

/-- Witness for C5 at concrete states for the Creating branch and the
delayed-deletion delivery. -/
theorem c5_remove_object_dispatch_witness :
    (remove_object 0
        { RMState.new with replicate_records := [(0, ⟨4, 0, .Creating⟩)] }).map (fun s =>
        (s.queued_messages, s.delayed_replicate_deletions, s.replicate_records))
      = some ([], [0], [(0, ⟨4, 0, .Creating⟩)])
    ∧ (notify_packet_delivered 9
        { RMState.new with
          sent_messages := [(9, [.CreateObject 0 4 ⟨0, []⟩])]
          delayed_replicate_deletions := [0]
          replicate_records := [(0, ⟨4, 0, .Creating⟩)] }).map (fun s =>
        (s.queued_messages, alook s.replicate_records 0,
          decide (0 ∈ s.delayed_replicate_deletions)))
      = some ([.DeleteReplicate 0 4], some ⟨4, 0, .Deleting⟩, false) := by
  have h := c5_remove_object_dispatch
    { RMState.new with replicate_records := [(0, ⟨4, 0, .Creating⟩)] } 0 ⟨4, 0, .Creating⟩ rfl
  constructor
  · have h1 := h.1 rfl
    simpa [RMState.new, sins] using h1
  · exact h.2.2.2
      { RMState.new with
        sent_messages := [(9, [.CreateObject 0 4 ⟨0, []⟩])]
        delayed_replicate_deletions := [0]
        replicate_records := [(0, ⟨4, 0, .Creating⟩)] } 9 4 ⟨0, []⟩ ⟨4, 0, .Creating⟩
      rfl (by decide) rfl

/-- C5 counterexample: on a reachable state where global key 0 has a record
in Creating status and is a pawn, remove_object enqueues an UnassignPawn —
the claim's Creating branch says nothing is enqueued. -/
theorem c5_remove_object_pawn_cex :
    ((runOps [.addObject 0 ⟨0, []⟩, .addPawn 0]).map
        (fun s => (s.queued_messages, (alook s.replicate_records 0).map ReplicateRecord.status)))
      = some ([.CreateObject 0 0 ⟨0, []⟩, .AssignPawn 0 0], some .Creating)
    ∧ (((runOps [.addObject 0 ⟨0, []⟩, .addPawn 0]).bind (remove_object 0)).map
        (fun s => s.queued_messages))
      = some [.CreateObject 0 0 ⟨0, []⟩, .AssignPawn 0 0, .UnassignPawn 0 0] := by
  constructor <;> rfl

/-! ## C7: the pawn/record invariant -/

/-- The pawn/record invariant carried through the induction: every pawn key
has a record, and the local store and the record map have the same domain. -/
def InvPR (st : RMState) : Prop :=
  (∀ g, g ∈ st.pawn_object_store → (alook st.replicate_records g).isSome = true)
  ∧ (∀ g, (alook st.local_replicate_store g).isSome = (alook st.replicate_records g).isSome)

/-- Two manager states agreeing on the three stores the invariant reads. -/
def sameStores (st st' : RMState) : Prop :=
  st'.pawn_object_store = st.pawn_object_store
  ∧ st'.replicate_records = st.replicate_records
  ∧ st'.local_replicate_store = st.local_replicate_store

theorem sameStores_refl (st : RMState) : sameStores st st := ⟨rfl, rfl, rfl⟩

theorem sameStores_trans {a b c : RMState} (h1 : sameStores a b) (h2 : sameStores b c) :
    sameStores a c :=
  ⟨h2.1.trans h1.1, h2.2.1.trans h1.2.1, h2.2.2.trans h1.2.2⟩

theorem invPR_of_sameStores {st st' : RMState} (h : sameStores st st') (hi : InvPR st) :
    InvPR st' := by
  obtain ⟨hp, hr, hs⟩ := h
  exact ⟨fun g hg => hr ▸ hi.1 g (hp ▸ hg), fun g => by rw [hr, hs]; exact hi.2 g⟩

theorem sameStores_foldl {A : Type} (f : RMState → A → RMState)
    (h : ∀ s a, sameStores s (f s a)) :
    ∀ (l : List A) (s : RMState), sameStores s (l.foldl f s) := by
  intro l
  induction l with
  | nil => intro s; exact sameStores_refl s
  | cons a t ih =>
    intro s
    exact sameStores_trans (h s a) (ih (f s a))

theorem invPR_foldlM {A : Type} (f : RMState → A → Option RMState)
    (h : ∀ s a s', InvPR s → f s a = some s' → InvPR s') :
    ∀ (l : List A) (s s' : RMState), InvPR s → l.foldlM f s = some s' → InvPR s' := by
  intro l
  induction l with
  | nil =>
    intro s s' hi hf
    simp only [List.foldlM_nil] at hf
    cases hf
    exact hi
  | cons a t ih =>
    intro s s' hi hf
    simp only [List.foldlM_cons, Option.bind_eq_bind] at hf
    obtain ⟨s1, hs1, hrest⟩ := Option.bind_eq_some.mp hf
    exact ih s1 s' (h s a s1 hi hs1) hrest

theorem invPR_foldl {A : Type} (f : RMState → A → RMState)
    (h : ∀ s a, InvPR s → InvPR (f s a)) :
    ∀ (l : List A) (s : RMState), InvPR s → InvPR (l.foldl f s) := by
  intro l
  induction l with
  | nil => intro s hi; exact hi
  | cons a t ih => intro s hi; exact ih (f s a) (h s a hi)

theorem sameStores_mhClear (st : RMState) (g : GKey) : sameStores st (mhClear st g) := by
  unfold mhClear
  cases alook st.replicate_records g <;> exact ⟨rfl, rfl, rfl⟩

theorem sameStores_mhSet (st : RMState) (g : GKey) (m : DiffMask) :
    sameStores st (mhSet st g m) := by
  unfold mhSet
  cases alook st.replicate_records g <;> exact ⟨rfl, rfl, rfl⟩

theorem sameStores_mhMutate (st : RMState) (g : GKey) (idx : Nat) :
    sameStores st (mhMutate st g idx) := by
  unfold mhMutate
  cases alook st.replicate_records g <;> exact ⟨rfl, rfl, rfl⟩

theorem sameStores_popCreateMask (st : RMState) (g : GKey) :
    sameStores st (popCreateMask st g) := by
  unfold popCreateMask
  refine sameStores_trans ?_ (sameStores_mhClear _ g)
  cases alook st.replicate_records g <;> exact ⟨rfl, rfl, rfl⟩

theorem sameStores_unpopCreateMask (st : RMState) (g : GKey) :
    sameStores st (unpopCreateMask st g) := by
  unfold unpopCreateMask
  cases st.last_popped_diff_mask with
  | none => exact sameStores_refl st
  | some m => exact sameStores_mhSet st g m

theorem sameStores_processUpdate (st : RMState) (i : Nat) (g : GKey) (mc : CellId) :
    sameStores st (processUpdate i g mc st).1 := by
  unfold processUpdate
  dsimp only
  refine sameStores_trans ?_ (sameStores_mhClear _ g)
  split <;> (try split) <;> exact ⟨rfl, rfl, rfl⟩

theorem sameStores_ceMaskFold (l : List (GKey × LKey × RepValue)) :
    ∀ (acc : List (GKey × DiffMask) × RMState),
      sameStores acc.2 ((l.foldl ceMaskFoldStep acc).2) := by
  induction l with
  | nil => intro acc; exact sameStores_refl _
  | cons x t ih =>
    intro acc
    refine sameStores_trans (b := (ceMaskFoldStep acc x).2) ?_ (ih _)
    exact sameStores_mhClear _ _

theorem sameStores_popEffects (i : Nat) (st1 : RMState) (msg : ReplicateAction) :
    sameStores st1 (popEffects i st1 msg).1 := by
  unfold popEffects
  cases msg <;> dsimp only
  case CreateObject g l v => exact sameStores_popCreateMask st1 g
  case AddComponent el g l v => exact sameStores_popCreateMask st1 g
  case CreateEntity e l compsOpt =>
    cases compsOpt with
    | none => exact sameStores_refl _
    | some comps =>
      exact sameStores_trans (sameStores_ceMaskFold comps ([], st1)) ⟨rfl, rfl, rfl⟩
  case UpdateReplicate g l mc v => exact sameStores_processUpdate st1 i g mc
  case UpdatePawn g l mc v => exact sameStores_processUpdate st1 i g mc
  all_goals exact sameStores_refl _

theorem sameStores_pop {st st' : RMState} {i : Nat} {a : Option ReplicateAction}
    (h : pop_outgoing_action i st = some (st', a)) : sameStores st st' := by
  unfold pop_outgoing_action at h
  split at h
  · cases h
    exact sameStores_refl _
  · rename_i msg0 rest heq
    dsimp only at h
    split at h
    · cases h
    · rename_i repl hrepl
      cases h
      exact sameStores_trans (⟨rfl, rfl, rfl⟩ : sameStores st _) (sameStores_popEffects i _ _)

theorem sameStores_undoUpdate {st st' : RMState} {i : Nat} {g : GKey} {c : CellId}
    (h : undoUpdate i g st = some (st', c)) : sameStores st st' := by
  unfold undoUpdate at h
  dsimp only at h
  split at h
  · rename_i r hr
    cases h
    split
    · rename_i m hm
      exact sameStores_trans ⟨rfl, rfl, rfl⟩ (sameStores_mhSet _ g m)
    · exact ⟨rfl, rfl, rfl⟩
  · cases h

theorem sameStores_unpop {st st' : RMState} {i : Nat} {msg : ReplicateAction}
    (h : unpop_outgoing_action i msg st = some st') : sameStores st st' := by
  unfold unpop_outgoing_action at h
  dsimp only at h
  have base : sameStores st { st with sent_messages := unpopSentMessages st i } :=
    ⟨rfl, rfl, rfl⟩
  split at h
  · cases h
    exact sameStores_trans base (sameStores_trans (sameStores_unpopCreateMask _ _) ⟨rfl, rfl, rfl⟩)
  · cases h
    exact sameStores_trans base (sameStores_trans (sameStores_unpopCreateMask _ _) ⟨rfl, rfl, rfl⟩)
  · cases h
    refine sameStores_trans base ?_
    split
    · rename_i lst hl
      refine sameStores_trans
        (sameStores_foldl _ (fun s t => sameStores_mhSet s t.1 t.2) lst _) ?_
      exact ⟨rfl, rfl, rfl⟩
    · exact ⟨rfl, rfl, rfl⟩
  · rename_i g l mc v
    split at h
    · cases h
    · rename_i p hp
      obtain ⟨p1, p2⟩ := p
      cases h
      exact sameStores_trans base (sameStores_trans (sameStores_undoUpdate hp) ⟨rfl, rfl, rfl⟩)
  · rename_i g l mc v
    split at h
    · cases h
    · rename_i p hp
      obtain ⟨p1, p2⟩ := p
      cases h
      exact sameStores_trans base (sameStores_trans (sameStores_undoUpdate hp) ⟨rfl, rfl, rfl⟩)
  · cases h
    exact sameStores_trans base ⟨rfl, rfl, rfl⟩

theorem sameStores_dropUpdate (i : Nat) (st : RMState) (g : GKey) :
    sameStores st (dropUpdate i st g) := by
  unfold dropUpdate
  split
  · exact sameStores_refl _
  · split
    · exact sameStores_refl _
    · dsimp only
      split <;> exact sameStores_refl _

theorem sameStores_dropStep (i : Nat) (st : RMState) (msg : ReplicateAction) :
    sameStores st (dropStep i st msg) := by
  unfold dropStep
  split
  · exact sameStores_dropUpdate i st _
  · exact sameStores_dropUpdate i st _
  · exact ⟨rfl, rfl, rfl⟩

theorem sameStores_dropped (i : Nat) (st : RMState) :
    sameStores st (notify_packet_dropped i st) := by
  unfold notify_packet_dropped
  split
  · exact sameStores_refl _
  · refine sameStores_trans (sameStores_foldl _ (sameStores_dropStep i) _ st) ⟨rfl, rfl, rfl⟩

theorem sameStores_collect (st : RMState) :
    sameStores st (collect_replicate_updates st) := by
  unfold collect_replicate_updates
  refine sameStores_foldl _ ?_ _ st
  intro s kv
  dsimp only
  split
  · split
    · split
      · split <;> exact ⟨rfl, rfl, rfl⟩
      · exact sameStores_refl _
    · exact sameStores_refl _
  · exact sameStores_refl _

theorem invPR_set_record (st : RMState) (g : GKey) (r' : ReplicateRecord)
    (hg : (alook st.replicate_records g).isSome = true) (h : InvPR st) :
    InvPR { st with replicate_records := aset st.replicate_records g r' } := by
  obtain ⟨h1, h2⟩ := h
  constructor
  · intro c hc
    by_cases hcg : c = g
    · subst hcg
      simp [alook_aset_self]
    · rw [alook_aset_ne _ _ _ _ hcg]
      exact h1 c hc
  · intro c
    by_cases hcg : c = g
    · subst hcg
      simp only [alook_aset_self, Option.isSome_some]
      rw [h2 c]
      exact hg
    · rw [alook_aset_ne _ _ _ _ hcg]
      exact h2 c

theorem invPR_replicateInit {st st' : RMState} {g : GKey} {v : RepValue}
    {status : LocalityStatus} {lk : LKey}
    (hin : replicateInit g v status st = some (st', lk)) (h : InvPR st) : InvPR st' := by
  unfold replicateInit at hin
  split at hin
  · cases hin
  · cases hin
    obtain ⟨h1, h2⟩ := h
    constructor
    · intro c hc
      by_cases hcg : c = g
      · subst hcg
        simp [alook_aset_self]
      · rw [alook_aset_ne _ _ _ _ hcg]
        exact h1 c hc
    · intro c
      by_cases hcg : c = g
      · subst hcg
        simp [alook_aset_self]
      · rw [alook_aset_ne _ _ _ _ hcg, alook_aset_ne _ _ _ _ hcg]
        exact h2 c

theorem invPR_replicateCleanup (st : RMState) (g : GKey) (h : InvPR st) :
    InvPR (replicateCleanup st g) := by
  unfold replicateCleanup
  split
  · rename_i r hr
    obtain ⟨h1, h2⟩ := h
    constructor
    · intro c hc
      simp only at hc
      have hcg : c ≠ g := by
        rintro rfl
        exact not_mem_sdel_self st.pawn_object_store c hc
      simp only [alook_adel_ne _ _ _ hcg]
      exact h1 c ((mem_sdel_ne _ _ _ hcg).mp hc)
    · intro c
      by_cases hcg : c = g
      · subst hcg
        simp [alook_adel_self]
      · rw [alook_adel_ne _ _ _ hcg, alook_adel_ne _ _ _ hcg]
        exact h2 c
  · exact h

theorem invPR_replicateDelete (st : RMState) (g : GKey) (r : ReplicateRecord)
    (hr : alook st.replicate_records g = some r) (h : InvPR st) :
    InvPR (replicateDelete st g r) := by
  unfold replicateDelete
  have := invPR_set_record st g { r with status := .Deleting } (by rw [hr]; rfl) h
  exact ⟨this.1, this.2⟩

theorem invPR_deliverMsg {i : Nat} {acc : RMState × List GKey} {msg : ReplicateAction}
    {acc' : RMState × List GKey} (hd : deliverMsg i acc msg = some acc')
    (h : InvPR acc.1) : InvPR acc'.1 := by
  unfold deliverMsg at hd
  dsimp only at hd
  split at hd
  -- CreateObject
  · split at hd
    · cases hd
    · rename_i r hr
      split at hd
      · cases hd
        exact invPR_replicateDelete _ _ r hr ⟨h.1, h.2⟩
      · cases hd
        exact invPR_set_record acc.1 _ _ (by rw [hr]; rfl) h
  -- DeleteReplicate
  · cases hd
    exact h
  -- UpdateReplicate
  · cases hd
    exact invPR_of_sameStores ⟨rfl, rfl, rfl⟩ h
  -- UpdatePawn
  · cases hd
    exact invPR_of_sameStores ⟨rfl, rfl, rfl⟩ h
  -- AssignPawn
  · cases hd
    exact h
  -- UnassignPawn
  · cases hd
    exact h
  -- CreateEntity
  · rename_i ge le compsOpt
    cases her : alook acc.1.local_entity_store ge with
    | none =>
      simp only [her] at hd
      cases hd
    | some er =>
      simp only [her] at hd
      by_cases hdel : ge ∈ acc.1.delayed_entity_deletions
      · simp only [if_pos hdel] at hd
        cases hd
        exact invPR_of_sameStores ⟨rfl, rfl, rfl⟩ h
      · simp only [if_neg hdel] at hd
        split at hd
        · cases hd
        · rename_i st2 hs2
          split at hd
          · cases hd
          · rename_i st3 hq
            cases hd
            have h2 : InvPR st2 := by
              have hbase : InvPR { acc.1 with
                  local_entity_store := aset acc.1.local_entity_store ge { er with status := .Created } } :=
                invPR_of_sameStores ⟨rfl, rfl, rfl⟩ h
              revert hs2
              unfold promoteOpt
              cases compsOpt with
              | some comps =>
                intro hs2
                unfold promoteComponents at hs2
                refine invPR_foldlM _ ?_ _ _ _ hbase hs2
                intro s a s' hi hf
                revert hf
                split
                · rename_i r hrr
                  intro hf
                  cases hf
                  exact invPR_set_record s _ _ (by rw [hrr]; rfl) hi
                · intro hf
                  cases hf
              | none =>
                intro hs2
                cases hs2
                exact hbase
            unfold enqueueMissingComponents at hq
            refine invPR_foldlM _ ?_ _ _ _ h2 hq
            intro s a s' hi hf
            revert hf
            split
            · intro hf
              cases hf
            · rename_i cr hcr
              split
              · split
                · intro hf
                  cases hf
                  exact invPR_of_sameStores ⟨rfl, rfl, rfl⟩ hi
                · intro hf
                  cases hf
              · intro hf
                cases hf
                exact hi
  -- DeleteEntity
  · split at hd
    · cases hd
    · cases hd
      exact invPR_of_sameStores ⟨rfl, rfl, rfl⟩ h
  -- AssignPawnEntity
  · cases hd
    exact h
  -- UnassignPawnEntity
  · cases hd
    exact h
  -- AddComponent
  · split at hd
    · cases hd
    · rename_i r hr
      split at hd
      · cases hd
        exact invPR_replicateDelete _ _ r hr ⟨h.1, h.2⟩
      · cases hd
        exact invPR_set_record acc.1 _ _ (by rw [hr]; rfl) h

theorem invPR_pawn_sdel (st : RMState) (g : GKey) (h : InvPR st) :
    InvPR { st with pawn_object_store := sdel st.pawn_object_store g } := by
  obtain ⟨h1, h2⟩ := h
  refine ⟨?_, h2⟩
  intro c hc
  simp only at hc
  have hcg : c ≠ g := by
    rintro rfl
    exact not_mem_sdel_self st.pawn_object_store c hc
  exact h1 c ((mem_sdel_ne _ _ _ hcg).mp hc)

theorem invPR_remove_pawn {st st' : RMState} {g : GKey}
    (ha : remove_pawn g st = some st') (h : InvPR st) : InvPR st' := by
  unfold remove_pawn at ha
  dsimp only at ha
  split at ha
  · split at ha
    · cases ha
      exact invPR_of_sameStores ⟨rfl, rfl, rfl⟩ (invPR_pawn_sdel st g h)
    · cases ha
      exact invPR_pawn_sdel st g h
  · cases ha

theorem invPR_remove_pawn_entity {st st' : RMState} {e : EKey}
    (ha : remove_pawn_entity e st = some st') (h : InvPR st) : InvPR st' := by
  unfold remove_pawn_entity at ha
  split at ha
  · split at ha
    · cases ha
      exact invPR_of_sameStores ⟨rfl, rfl, rfl⟩ h
    · cases ha
  · cases ha

theorem invPR_deliverFold (i : Nat) :
    ∀ (msgs : List ReplicateAction) (acc acc' : RMState × List GKey),
      InvPR acc.1 → msgs.foldlM (deliverMsg i) acc = some acc' → InvPR acc'.1 := by
  intro msgs
  induction msgs with
  | nil =>
    intro acc acc' hi hf
    simp only [List.foldlM_nil] at hf
    cases hf
    exact hi
  | cons m t ih =>
    intro acc acc' hi hf
    simp only [List.foldlM_cons, Option.bind_eq_bind] at hf
    obtain ⟨acc1, h1, hrest⟩ := Option.bind_eq_some.mp hf
    exact ih acc1 acc' (invPR_deliverMsg h1 hi) hrest

/-- Every public operation that succeeds preserves the pawn/record
invariant. -/
theorem invPR_applyOp (op : Op) (st st' : RMState) (h : InvPR st)
    (ha : applyOp op st = some st') : InvPR st' := by
  cases op with
  | addObject g v =>
    simp only [applyOp] at ha
    unfold add_object at ha
    split at ha
    · cases ha
    · rename_i p hp
      obtain ⟨st1, lk⟩ := p
      cases ha
      have h1 : InvPR st1 := invPR_replicateInit hp h
      exact invPR_of_sameStores ⟨rfl, rfl, rfl⟩ h1
  | removeObject g =>
    simp only [applyOp] at ha
    unfold remove_object at ha
    split at ha
    · cases ha
    · rename_i st0 h0
      have hst0 : InvPR st0 := by
        revert h0
        split
        · intro h0
          exact invPR_remove_pawn h0 h
        · intro h0
          cases h0
          exact h
      split at ha
      · rename_i r hr
        split at ha
        · cases ha
          exact invPR_of_sameStores ⟨rfl, rfl, rfl⟩ hst0
        · cases ha
          exact invPR_replicateDelete st0 g r hr hst0
        · cases ha
          exact hst0
      · cases ha
  | addPawn g =>
    simp only [applyOp] at ha
    unfold add_pawn at ha
    dsimp only at ha
    split at ha
    · rename_i hstore
      split at ha
      · cases ha
        exact h
      · rename_i hmem
        have hp : InvPR { st with pawn_object_store := sins st.pawn_object_store g } := by
          obtain ⟨h1, h2⟩ := h
          refine ⟨?_, h2⟩
          intro c hc
          simp only at hc
          rcases (mem_sins _ _ _).mp hc with rfl | hc'
          · rw [← h2 c]
            exact hstore
          · exact h1 c hc'
        split at ha
        · cases ha
          exact invPR_of_sameStores ⟨rfl, rfl, rfl⟩ hp
        · cases ha
          exact hp
    · cases ha
  | removePawn g =>
    simp only [applyOp] at ha
    exact invPR_remove_pawn ha h
  | addEntity e comps =>
    simp only [applyOp] at ha
    unfold add_entity at ha
    split at ha
    · cases ha
    · split at ha
      · cases ha
      · rename_i st1 h1
        cases ha
        have h1' : InvPR st1 := by
          refine invPR_foldlM _ ?_ comps st st1 h h1
          intro s a s' hi hf
          obtain ⟨p, hp, hmap⟩ := Option.map_eq_some'.mp hf
          obtain ⟨sa, lk⟩ := p
          cases hmap
          exact invPR_replicateInit hp hi
        exact invPR_of_sameStores ⟨rfl, rfl, rfl⟩ h1'
  | removeEntity e =>
    simp only [applyOp] at ha
    unfold remove_entity at ha
    split at ha
    · cases ha
    · rename_i st0 h0
      have hst0 : InvPR st0 := by
        revert h0
        split
        · intro h0
          exact invPR_remove_pawn_entity h0 h
        · intro h0
          cases h0
          exact h
      split at ha
      · rename_i er her
        split at ha
        · cases ha
          exact invPR_of_sameStores ⟨rfl, rfl, rfl⟩ hst0
        · cases ha
          refine invPR_foldl _ ?_ er.components _ ?_
          · intro s ck hi
            dsimp only
            split
            · rename_i r hrr
              refine invPR_set_record _ ck _ ?_ (invPR_pawn_sdel s ck hi)
              rw [hrr]
              rfl
            · exact invPR_pawn_sdel s ck hi
          · exact invPR_of_sameStores ⟨rfl, rfl, rfl⟩ hst0
        · cases ha
          exact hst0
      · cases ha
        exact hst0
  | addPawnEntity e =>
    simp only [applyOp] at ha
    unfold add_pawn_entity at ha
    split at ha
    · split at ha
      · cases ha
        exact h
      · split at ha
        · cases ha
          exact invPR_of_sameStores ⟨rfl, rfl, rfl⟩ h
        · cases ha
    · cases ha
      exact h
  | removePawnEntity e =>
    simp only [applyOp] at ha
    exact invPR_remove_pawn_entity ha h
  | addComponent e c v =>
    simp only [applyOp] at ha
    unfold add_component at ha
    dsimp only at ha
    split at ha
    · cases ha
    · split at ha
      · cases ha
      · rename_i p hp
        obtain ⟨st1, lk⟩ := p
        have h1 : InvPR st1 := invPR_replicateInit hp h
        split at ha
        · cases ha
        · split at ha
          · cases ha
            exact invPR_of_sameStores ⟨rfl, rfl, rfl⟩ h1
          · cases ha
            exact invPR_of_sameStores ⟨rfl, rfl, rfl⟩ h1
          · cases ha
            exact invPR_of_sameStores ⟨rfl, rfl, rfl⟩ h1
  | collect =>
    simp only [applyOp] at ha
    cases ha
    exact invPR_of_sameStores (sameStores_collect st) h
  | pop i =>
    simp only [applyOp] at ha
    obtain ⟨p, hp, hmap⟩ := Option.map_eq_some'.mp ha
    obtain ⟨st1, a⟩ := p
    cases hmap
    exact invPR_of_sameStores (sameStores_pop hp) h
  | unpop i a =>
    simp only [applyOp] at ha
    exact invPR_of_sameStores (sameStores_unpop ha) h
  | delivered i =>
    simp only [applyOp] at ha
    unfold notify_packet_delivered at ha
    split at ha
    · cases ha
      exact h
    · rename_i msgs hmsgs
      split at ha
      · cases ha
      · rename_i p hp
        cases ha
        refine invPR_foldl replicateCleanup (fun s g hi => invPR_replicateCleanup s g hi) p.2 p.1 ?_
        refine invPR_deliverFold i msgs _ p ?_ hp
        exact invPR_of_sameStores ⟨rfl, rfl, rfl⟩ h
  | dropped i =>
    simp only [applyOp] at ha
    cases ha
    exact invPR_of_sameStores (sameStores_dropped i st) h
  | mutate g idx =>
    simp only [applyOp] at ha
    cases ha
    exact invPR_of_sameStores (sameStores_mhMutate st g idx) h

/-- C7 (amended): in every reachable per-connection state, a pawn
designation exists only for a global key whose ReplicateRecord exists. -/
theorem c7_pawn_has_record (ops : List Op) (st : RMState)
    (h : runOps ops = some st) :
    ∀ g, g ∈ st.pawn_object_store → (alook st.replicate_records g).isSome = true := by
  have hnew : InvPR RMState.new := by
    constructor
    · intro g hg
      simp [RMState.new] at hg
    · intro g
      rfl
  have key : ∀ (l : List Op) (s s' : RMState), InvPR s →
      l.foldlM (fun s op => applyOp op s) s = some s' → InvPR s' := by
    intro l
    induction l with
    | nil =>
      intro s s' hi hf
      simp only [List.foldlM_nil] at hf
      cases hf
      exact hi
    | cons op t ih =>
      intro s s' hi hf
      simp only [List.foldlM_cons, Option.bind_eq_bind] at hf
      obtain ⟨s1, h1, hrest⟩ := Option.bind_eq_some.mp hf
      exact ih s1 s' (invPR_applyOp op s s1 hi h1) hrest
  exact (key ops RMState.new st hnew h).1

/-- Witness for C7 on the reachable state after adding an object and making
it a pawn. -/
theorem c7_pawn_has_record_witness :
    (alook ((runOps [.addObject 0 ⟨0, []⟩, .addPawn 0]).getD RMState.new).replicate_records 0).isSome
      = true := by
  exact c7_pawn_has_record [.addObject 0 ⟨0, []⟩, .addPawn 0]
    ((runOps [.addObject 0 ⟨0, []⟩, .addPawn 0]).getD RMState.new) rfl 0 (by decide)

/-- C7 counterexample: after add_object, a pop, delivery of that packet and
remove_object, the record of key 0 is Deleting, yet a subsequent add_pawn
succeeds and designates key 0 a pawn — a reachable state whose pawn
designation belongs to a Deleting record. -/
theorem c7_deleting_pawn_cex :
    (runOps [.addObject 0 ⟨0, []⟩, .pop 1, .delivered 1, .removeObject 0, .addPawn 0]).map
        (fun s => (decide (0 ∈ s.pawn_object_store), (alook s.replicate_records 0).map ReplicateRecord.status))
      = some (true, some .Deleting) := by
  rfl

/-! ## C3: update pops lock an immutable snapshot -/

/-- An UpdatePawn (for pawns) or UpdateReplicate action. -/
def mkUpd (b : Bool) (g : GKey) (l : LKey) (mc : CellId) (v : RepValue) : ReplicateAction :=
  if b then .UpdatePawn g l mc v else .UpdateReplicate g l mc v

/-- C3: popping an UpdateReplicate or UpdatePawn action for key g clones the
live diff mask into a fresh locked cell, records it in
sent_updates[packet_index][g], clears the live mask, and returns an action
carrying the locked cell — which is distinct from the live cell, so a later
mutation of g leaves the snapshot untouched. -/
theorem c3_update_pop_snapshot (st : RMState) (i : Nat) (b : Bool) (g : GKey) (l : LKey)
    (mc : CellId) (v : RepValue) (rest : List ReplicateAction) (r : ReplicateRecord)
    (hq : st.queued_messages = mkUpd b g l mc v :: rest)
    (hr : alook st.replicate_records g = some r)
    (hmc : mc = r.diff_mask_cell)
    (hcell : r.diff_mask_cell < st.nextCell) :
    (pop_outgoing_action i st).map (fun p => p.2)
        = some (some (mkUpd b g l st.nextCell v))
    ∧ (pop_outgoing_action i st).map (fun p => p.1.heap st.nextCell)
        = some (st.heap r.diff_mask_cell)
    ∧ (pop_outgoing_action i st).map (fun p => (alook p.1.sent_updates i).bind (fun m => alook m g))
        = some (some st.nextCell)
    ∧ (pop_outgoing_action i st).map (fun p => p.1.heap r.diff_mask_cell) = some 0
    ∧ st.nextCell ≠ r.diff_mask_cell
    ∧ (pop_outgoing_action i st).map (fun p => alook p.1.replicate_records g) = some (some r)
    ∧ ∀ idx, (pop_outgoing_action i st).map (fun p => (mhMutate p.1 g idx).heap st.nextCell)
        = (pop_outgoing_action i st).map (fun p => p.1.heap st.nextCell) := by
  have hne : st.nextCell ≠ r.diff_mask_cell := Nat.ne_of_gt hcell
  cases b <;>
  · simp only [mkUpd, if_true, if_false, Bool.false_eq_true] at hq ⊢
    rcases hsu : alook st.sent_updates i with _ | m <;>
      simp [pop_outgoing_action, hq, materializeCreateEntity, popEffects, processUpdate,
        mhClear, hr, hsu, alook_aset_self, hmc, hupd, hne, Ne.symm hne, mhMutate]

/-- The concrete one-record manager used to witness C3. -/
def c3WitSt : RMState :=
  { RMState.new with
    nextCell := 1
    heap := hupd (fun _ => 0) 0 5
    replicate_records := [(0, ⟨1, 0, .Created⟩)]
    queued_messages := [.UpdateReplicate 0 1 0 ⟨0, []⟩] }

/-- Witness for C3 on a one-record manager with a queued update. -/
theorem c3_update_pop_snapshot_witness :
    (pop_outgoing_action 7 c3WitSt).map (fun p => p.2)
      = some (some (.UpdateReplicate 0 1 1 ⟨0, []⟩))
    ∧ (pop_outgoing_action 7 c3WitSt).map (fun p => (p.1.heap 1, p.1.heap 0))
      = some (5, 0) := by
  have h := c3_update_pop_snapshot c3WitSt 7 false 0 1 0 ⟨0, []⟩ [] ⟨1, 0, .Created⟩
    rfl rfl rfl (by decide)
  obtain ⟨h1, h2, h3, h4, h5, h6, h7⟩ := h
  constructor
  · simpa [mkUpd, c3WitSt] using h1
  · have h2' : (pop_outgoing_action 7 c3WitSt).map (fun p => p.1.heap 1) = some 5 := by
      simpa [c3WitSt, hupd] using h2
    have h4' : (pop_outgoing_action 7 c3WitSt).map (fun p => p.1.heap 0) = some 0 := by
      simpa [c3WitSt] using h4
    cases hp : pop_outgoing_action 7 c3WitSt with
    | none =>
      rw [hp] at h2'
      cases h2'
    | some p =>
      rw [hp] at h2' h4'
      simp only [Option.map_some'] at h2' h4'
      simp only [Option.map_some']
      rw [Option.some_inj] at h2' h4'
      rw [Option.some_inj]
      rw [h2', h4']

/-! ## C2: CreateEntity materialization, mask snapshots, and promotion -/

/-- Characterization of the CreateEntity pop loop: with every listed record
present and the listed mask cells pairwise distinct, the loop appends each
component's pre-pop mask to the saved list and clears exactly the listed
cells. -/
theorem ceMaskFold_go (rc : GKey → ReplicateRecord) :
    ∀ (l : List (GKey × LKey × RepValue)) (acc : List (GKey × DiffMask) × RMState),
      (∀ t ∈ l, alook acc.2.replicate_records t.1 = some (rc t.1)) →
      ((l.map (fun t => (rc t.1).diff_mask_cell)).Nodup) →
      (l.foldl ceMaskFoldStep acc).1
          = acc.1 ++ l.map (fun t => (t.1, acc.2.heap (rc t.1).diff_mask_cell))
      ∧ (l.foldl ceMaskFoldStep acc).2.replicate_records = acc.2.replicate_records
      ∧ (∀ x, (l.foldl ceMaskFoldStep acc).2.heap x
          = if x ∈ l.map (fun t => (rc t.1).diff_mask_cell) then 0 else acc.2.heap x)
      ∧ (l.foldl ceMaskFoldStep acc).2.local_entity_store = acc.2.local_entity_store
      ∧ (l.foldl ceMaskFoldStep acc).2.local_replicate_store = acc.2.local_replicate_store
      ∧ (l.foldl ceMaskFoldStep acc).2.sent_messages = acc.2.sent_messages
      ∧ (l.foldl ceMaskFoldStep acc).2.sent_updates = acc.2.sent_updates
      ∧ (l.foldl ceMaskFoldStep acc).2.queued_messages = acc.2.queued_messages
      ∧ (l.foldl ceMaskFoldStep acc).2.delayed_entity_deletions = acc.2.delayed_entity_deletions := by
  intro l
  induction l with
  | nil =>
    intro acc _ _
    refine ⟨by simp, rfl, ?_, rfl, rfl, rfl, rfl, rfl, rfl⟩
    intro x
    simp
  | cons t ts ih =>
    intro acc hrec hnd
    have ht : alook acc.2.replicate_records t.1 = some (rc t.1) := hrec t (by simp)
    have hstep : ceMaskFoldStep acc t
        = (acc.1 ++ [(t.1, acc.2.heap (rc t.1).diff_mask_cell)],
           { acc.2 with heap := hupd acc.2.heap (rc t.1).diff_mask_cell 0 }) := by
      unfold ceMaskFoldStep mhClear
      rw [ht]
    have hnd' := (List.nodup_cons.mp hnd)
    have hrec' : ∀ t' ∈ ts, alook ({ acc.2 with
        heap := hupd acc.2.heap (rc t.1).diff_mask_cell 0 } : RMState).replicate_records t'.1
        = some (rc t'.1) := by
      intro t' ht'
      exact hrec t' (by simp [ht'])
    have := ih (acc.1 ++ [(t.1, acc.2.heap (rc t.1).diff_mask_cell)],
      { acc.2 with heap := hupd acc.2.heap (rc t.1).diff_mask_cell 0 }) hrec' hnd'.2
    obtain ⟨i1, i2, i3, i4, i5, i6, i7, i8, i9⟩ := this
    dsimp only at i1 i2 i3 i4 i5 i6 i7 i8 i9
    rw [List.foldl_cons, hstep]
    refine ⟨?_, i2, ?_, i4, i5, i6, i7, i8, i9⟩
    · rw [i1]
      have hmap : ts.map (fun t' => (t'.1,
          hupd acc.2.heap (rc t.1).diff_mask_cell 0 (rc t'.1).diff_mask_cell))
          = ts.map (fun t' => (t'.1, acc.2.heap (rc t'.1).diff_mask_cell)) := by
        apply List.map_congr_left
        intro t' ht'
        have hne : (rc t'.1).diff_mask_cell ≠ (rc t.1).diff_mask_cell := by
          intro he
          refine hnd'.1 ?_
          have hmem := List.mem_map_of_mem
            (fun q : GKey × LKey × RepValue => (rc q.1).diff_mask_cell) ht'
          simpa [he] using hmem
        simp [hupd, hne]
      rw [hmap]
      simp
    · intro x
      rw [i3 x]
      by_cases hx : x ∈ ts.map (fun t => (rc t.1).diff_mask_cell)
      · simp [hx]
      · by_cases hx2 : x = (rc t.1).diff_mask_cell
        · simp [hx, hx2, hupd]
        · simp [hx, hx2, hupd]

/-- Materialization of a component set whose records and values are all
present yields the list of (key, local key, value) triples. -/
theorem mapM_components (st : RMState) (rc : GKey → ReplicateRecord) (vc : GKey → RepValue) :
    ∀ (cs : List GKey),
      (∀ c ∈ cs, alook st.replicate_records c = some (rc c)) →
      (∀ c ∈ cs, alook st.local_replicate_store c = some (vc c)) →
      cs.mapM (fun ck =>
          match alook st.local_replicate_store ck, alook st.replicate_records ck with
          | some v, some r => some (ck, r.local_key, v)
          | _, _ => none)
        = some (cs.map (fun c => (c, (rc c).local_key, vc c))) := by
  intro cs
  induction cs with
  | nil =>
    intro _ _
    rfl
  | cons c t ih =>
    intro hr hv
    rw [List.mapM_cons]
    rw [hr c (by simp), hv c (by simp), ih (fun c hc => hr c (by simp [hc]))
      (fun c hc => hv c (by simp [hc]))]
    rfl

/-- Promotion of a bundled component list: every listed record is promoted
to Created, nothing else changes. -/
theorem promote_go :
    ∀ (l : List (GKey × LKey × RepValue)) (s : RMState),
      (∀ t ∈ l, (alook s.replicate_records t.1).isSome = true) →
      ∃ s', (l.foldlM (fun (s : RMState) (t : GKey × LKey × RepValue) =>
          match alook s.replicate_records t.1 with
          | some r => some { s with replicate_records := aset s.replicate_records t.1 { r with status := .Created } }
          | none => none) s) = some s'
        ∧ s'.queued_messages = s.queued_messages
        ∧ s'.local_entity_store = s.local_entity_store
        ∧ s'.local_replicate_store = s.local_replicate_store
        ∧ s'.heap = s.heap
        ∧ s'.sent_messages = s.sent_messages
        ∧ s'.sent_updates = s.sent_updates
        ∧ s'.delayed_replicate_deletions = s.delayed_replicate_deletions
        ∧ (∀ c, c ∈ l.map (fun t => t.1) →
            (alook s'.replicate_records c).map ReplicateRecord.status = some .Created)
        ∧ (∀ c, c ∉ l.map (fun t => t.1) →
            alook s'.replicate_records c = alook s.replicate_records c) := by
  intro l
  induction l with
  | nil =>
    intro s _
    refine ⟨s, rfl, rfl, rfl, rfl, rfl, rfl, rfl, rfl, ?_, ?_⟩
    · intro c hc
      simp at hc
    · intro c _
      rfl
  | cons t ts ih =>
    intro s hl
    have ht := hl t (by simp)
    rcases hr : alook s.replicate_records t.1 with _ | r
    · rw [hr] at ht
      cases ht
    · have hts : ∀ t' ∈ ts,
          (alook (aset s.replicate_records t.1 { r with status := .Created }) t'.1).isSome = true := by
        intro t' ht'
        by_cases he : t'.1 = t.1
        · simp only [he, alook_aset_self, Option.isSome_some]
        · simp only [alook_aset_ne _ _ _ _ he]
          exact hl t' (by simp [ht'])
      obtain ⟨s', hs', q1, q2, q3, q4, q5, q6, q7, q8, q9⟩ := ih { s with replicate_records := aset s.replicate_records t.1 { r with status := .Created } } hts
      refine ⟨s', ?_, q1, q2, q3, q4, q5, q6, q7, ?_, ?_⟩
      · rw [List.foldlM_cons, hr]
        exact hs'
      · intro c hc
        simp only [List.map_cons, List.mem_cons] at hc
        rcases hc with rfl | hc
        · by_cases hcts : t.1 ∈ ts.map (fun q => q.1)
          · exact q8 _ hcts
          · rw [q9 _ hcts]
            simp [alook_aset_self]
        · exact q8 c hc
      · intro c hc
        simp only [List.map_cons, List.mem_cons, not_or] at hc
        rw [q9 c hc.2]
        simp only [alook_aset_ne _ _ _ _ hc.1]

/-- The post-promotion scan is the identity when every listed component's
record is already Created. -/
theorem scan_identity (elk : LKey) :
    ∀ (cs : List GKey) (s : RMState),
      (∀ c ∈ cs, (alook s.replicate_records c).map ReplicateRecord.status = some .Created) →
      enqueueMissingComponents elk cs s = some s := by
  intro cs
  induction cs with
  | nil =>
    intro s _
    rfl
  | cons c t ih =>
    intro s hcs
    have hc := hcs c (by simp)
    rcases hr : alook s.replicate_records c with _ | cr
    · rw [hr] at hc
      cases hc
    · rw [hr] at hc
      simp only [Option.map_some', Option.some_inj] at hc
      unfold enqueueMissingComponents
      rw [List.foldlM_cons]
      simp only [hr]
      rw [if_neg (by simp [hc])]
      simp only [Option.bind_eq_bind, Option.some_bind]
      exact ih s (fun c' hc' => hcs c' (by simp [hc']))

/-- Delivery of a packet carrying exactly one CreateEntity action with a
bundled component list: the entity record and every bundled component record
are promoted to Created, and nothing is enqueued when the bundled list
covers the entity's component set. -/
theorem deliver_create_entity_spec (st2 : RMState) (i : Nat) (e : EKey) (le : LKey)
    (lst : List (GKey × LKey × RepValue)) (er : EntityRecord)
    (hsent : alook st2.sent_messages i = some [.CreateEntity e le (some lst)])
    (her : alook st2.local_entity_store e = some er)
    (hdel : e ∉ st2.delayed_entity_deletions)
    (hrec : ∀ t ∈ lst, (alook st2.replicate_records t.1).isSome = true)
    (hcover : ∀ c ∈ er.components, c ∈ lst.map (fun t => t.1)) :
    (notify_packet_delivered i st2).map (fun s =>
        ((alook s.local_entity_store e).map EntityRecord.status, s.queued_messages))
      = some (some .Created, st2.queued_messages)
    ∧ ∀ c ∈ lst.map (fun t => t.1),
        (notify_packet_delivered i st2).map
            (fun s => (alook s.replicate_records c).map ReplicateRecord.status)
          = some (some .Created) := by
  have hrecRev : ∀ t ∈ lst.reverse,
      (alook ({ st2 with
          sent_messages := adel st2.sent_messages i
          local_entity_store := aset st2.local_entity_store e { er with status := .Created } } : RMState).replicate_records t.1).isSome
        = true := by
    intro t ht
    exact hrec t (List.mem_reverse.mp ht)
  obtain ⟨sP, hsP, q1, q2, q3, q4, q5, q6, q7, q8, q9⟩ :=
    promote_go lst.reverse
      { st2 with
        sent_messages := adel st2.sent_messages i
        local_entity_store := aset st2.local_entity_store e { er with status := .Created } }
      hrecRev
  have hstat : ∀ c ∈ er.components,
      (alook sP.replicate_records c).map ReplicateRecord.status = some .Created := by
    intro c hc
    refine q8 c ?_
    rw [List.map_reverse, List.mem_reverse]
    exact hcover c hc
  have hscan := scan_identity er.local_key er.components sP hstat
  have hdeliv : notify_packet_delivered i st2 = some sP := by
    unfold notify_packet_delivered
    rw [hsent]
    dsimp only
    rw [List.foldlM_cons]
    unfold deliverMsg
    dsimp only
    rw [her]
    dsimp only
    rw [if_neg hdel]
    unfold promoteOpt
    dsimp only
    have hsP' : promoteComponents lst
        { st2 with
          sent_messages := adel st2.sent_messages i
          local_entity_store := aset st2.local_entity_store e { er with status := .Created } }
        = some sP := hsP
    rw [hsP']
    dsimp only
    rw [hscan]
    rfl
  rw [hdeliv]
  constructor
  · simp only [Option.map_some', Option.some_inj]
    rw [q2]
    simp only [alook_aset_self, Option.map_some']
    rw [q1]
  · intro c hc
    simp only [Option.map_some', Option.some_inj]
    refine q8 c ?_
    rw [List.map_reverse, List.mem_reverse]
    exact hc

/-- Popping a queue whose head is a CreateEntity without a component list:
the action is materialized from the entity's current component set, recorded
in sent_messages, and the mask save-and-clear loop runs over the bundled
list. -/
theorem pop_create_entity_spec (st : RMState) (i : Nat) (e : EKey) (le : LKey)
    (rest : List ReplicateAction) (er : EntityRecord)
    (rc : GKey → ReplicateRecord) (vc : GKey → RepValue)
    (hq : st.queued_messages = .CreateEntity e le none :: rest)
    (her : alook st.local_entity_store e = some er)
    (hrc : ∀ c ∈ er.components, alook st.replicate_records c = some (rc c))
    (hvc : ∀ c ∈ er.components, alook st.local_replicate_store c = some (vc c))
    (hsm : alook st.sent_messages i = none) :
    pop_outgoing_action i st = some
      ({ ((er.components.map (fun c => (c, (rc c).local_key, vc c))).foldl ceMaskFoldStep
            ([], { st with
                    queued_messages := rest
                    sent_messages := aset st.sent_messages i
                      [.CreateEntity e le
                        (some (er.components.map (fun c => (c, (rc c).local_key, vc c))))] })).2 with
          last_popped_diff_mask_list := some
            ((er.components.map (fun c => (c, (rc c).local_key, vc c))).foldl ceMaskFoldStep
              ([], { st with
                      queued_messages := rest
                      sent_messages := aset st.sent_messages i
                        [.CreateEntity e le
                          (some (er.components.map (fun c => (c, (rc c).local_key, vc c))))] })).1 },
        some (.CreateEntity e le
          (some (er.components.map (fun c => (c, (rc c).local_key, vc c)))))) := by
  have hmat : materializeCreateEntity { st with queued_messages := rest }
      (.CreateEntity e le none)
      = some (some (.CreateEntity e le
          (some (er.components.map (fun c => (c, (rc c).local_key, vc c)))))) := by
    unfold materializeCreateEntity
    dsimp only
    rw [her]
    dsimp only
    rw [mapM_components st rc vc er.components hrc hvc]
  unfold pop_outgoing_action
  rw [hq]
  dsimp only
  rw [hmat]
  dsimp only
  rw [hsm]
  dsimp only [Option.getD, popEffects]
  rw [List.nil_append]

/-- C2: a CreateEntity action is enqueued by add_entity without a component
list; when pop_outgoing_action pops it, the returned action carries the
entity's component set as it exists at pop time, each listed component's
diff mask is snapshotted into last_popped_diff_mask_list and then cleared,
and on delivery of the packet that carried it the entity record and all
bundled component records are promoted to Created. -/
theorem c2_create_entity_lifecycle
    (st0 : RMState) (e0 : EKey) (comps : List (GKey × RepValue)) (stf : RMState)
    (h0 : alook st0.local_entity_store e0 = none)
    (hfold : comps.foldlM
        (fun s kv => (replicateInit kv.1 kv.2 .Creating s).map (fun q => q.1)) st0
      = some stf)
    (st : RMState) (i : Nat) (e : EKey) (le : LKey) (rest : List ReplicateAction)
    (er : EntityRecord) (rc : GKey → ReplicateRecord) (vc : GKey → RepValue)
    (hq : st.queued_messages = .CreateEntity e le none :: rest)
    (her : alook st.local_entity_store e = some er)
    (hrc : ∀ c ∈ er.components, alook st.replicate_records c = some (rc c))
    (hvc : ∀ c ∈ er.components, alook st.local_replicate_store c = some (vc c))
    (hnd : (er.components.map (fun c => (rc c).diff_mask_cell)).Nodup)
    (hsm : alook st.sent_messages i = none)
    (hdel : e ∉ st.delayed_entity_deletions) :
    (add_entity e0 comps st0).map (fun s =>
        (s.queued_messages, (alook s.local_entity_store e0).map (fun r => r.components)))
      = some (stf.queued_messages ++ [.CreateEntity e0 stf.entity_key_gen.generate.1 none],
          some (comps.map (fun kv => kv.1)))
    ∧ (pop_outgoing_action i st).map (fun p => p.2)
      = some (some (.CreateEntity e le
          (some (er.components.map (fun c => (c, (rc c).local_key, vc c))))))
    ∧ (pop_outgoing_action i st).map (fun p => p.1.last_popped_diff_mask_list)
      = some (some (er.components.map (fun c => (c, st.heap (rc c).diff_mask_cell))))
    ∧ (∀ c ∈ er.components,
        (pop_outgoing_action i st).map (fun p => p.1.heap (rc c).diff_mask_cell) = some 0)
    ∧ ((pop_outgoing_action i st).bind (fun p => notify_packet_delivered i p.1)).map
        (fun s => ((alook s.local_entity_store e).map (fun r => r.status), s.queued_messages))
      = some (some .Created, rest)
    ∧ (∀ c ∈ er.components,
        ((pop_outgoing_action i st).bind (fun p => notify_packet_delivered i p.1)).map
          (fun s => (alook s.replicate_records c).map ReplicateRecord.status)
        = some (some .Created)) := by
  have hpop := pop_create_entity_spec st i e le rest er rc vc hq her hrc hvc hsm
  have hgo := ceMaskFold_go rc (er.components.map (fun c => (c, (rc c).local_key, vc c)))
    ([], { st with
            queued_messages := rest
            sent_messages := aset st.sent_messages i
              [.CreateEntity e le
                (some (er.components.map (fun c => (c, (rc c).local_key, vc c))))] })
    (by
      intro t ht
      obtain ⟨c, hc, hct⟩ := List.mem_map.mp ht
      subst hct
      exact hrc c hc)
    (by
      rw [List.map_map]
      simpa [Function.comp] using hnd)
  obtain ⟨g1, g2, g3, g4, g5, g6, g7, g8, g9⟩ := hgo
  dsimp only at g1 g2 g3 g4 g5 g6 g7 g8 g9
  refine ⟨?_, ?_, ?_, ?_, ?_, ?_⟩
  · unfold add_entity
    rw [h0]
    rw [if_neg (by simp)]
    rw [hfold]
    dsimp only
    simp only [Option.map_some', alook_aset_self, Option.some_inj]
  · simp only [hpop, Option.map_some']
  · rw [hpop]
    simp only [Option.map_some', Option.some_inj]
    rw [g1, List.nil_append, List.map_map]
    rfl
  · intro c hc
    rw [hpop]
    simp only [Option.map_some', Option.some_inj]
    rw [g3]
    rw [if_pos]
    rw [List.map_map]
    exact List.mem_map_of_mem _ hc
  · rw [hpop]
    simp only [Option.bind_eq_bind, Option.some_bind]
    have hd := deliver_create_entity_spec
      { ((er.components.map (fun c => (c, (rc c).local_key, vc c))).foldl ceMaskFoldStep
          ([], { st with
                  queued_messages := rest
                  sent_messages := aset st.sent_messages i
                    [.CreateEntity e le
                      (some (er.components.map (fun c => (c, (rc c).local_key, vc c))))] })).2 with
        last_popped_diff_mask_list := some
          ((er.components.map (fun c => (c, (rc c).local_key, vc c))).foldl ceMaskFoldStep
            ([], { st with
                    queued_messages := rest
                    sent_messages := aset st.sent_messages i
                      [.CreateEntity e le
                        (some (er.components.map (fun c => (c, (rc c).local_key, vc c))))] })).1 }
      i e le (er.components.map (fun c => (c, (rc c).local_key, vc c))) er
      (by
        show alook ((er.components.map (fun c => (c, (rc c).local_key, vc c))).foldl
          ceMaskFoldStep _).2.sent_messages i = _
        rw [g6]
        rw [alook_aset_self])
      (by
        show alook ((er.components.map (fun c => (c, (rc c).local_key, vc c))).foldl
          ceMaskFoldStep _).2.local_entity_store e = _
        rw [g4]
        exact her)
      (by
        show e ∉ ((er.components.map (fun c => (c, (rc c).local_key, vc c))).foldl
          ceMaskFoldStep _).2.delayed_entity_deletions
        rw [g9]
        exact hdel)
      (by
        intro t ht
        show (alook ((er.components.map (fun c => (c, (rc c).local_key, vc c))).foldl
          ceMaskFoldStep _).2.replicate_records t.1).isSome = true
        rw [g2]
        obtain ⟨c, hc, hct⟩ := List.mem_map.mp ht
        subst hct
        rw [hrc c hc]
        rfl)
      (by
        intro c hc
        rw [List.map_map]
        exact List.mem_map_of_mem _ hc)
    rw [hd.1, g8]
  · intro c hc
    rw [hpop]
    simp only [Option.bind_eq_bind, Option.some_bind]
    have hd := deliver_create_entity_spec
      { ((er.components.map (fun c => (c, (rc c).local_key, vc c))).foldl ceMaskFoldStep
          ([], { st with
                  queued_messages := rest
                  sent_messages := aset st.sent_messages i
                    [.CreateEntity e le
                      (some (er.components.map (fun c => (c, (rc c).local_key, vc c))))] })).2 with
        last_popped_diff_mask_list := some
          ((er.components.map (fun c => (c, (rc c).local_key, vc c))).foldl ceMaskFoldStep
            ([], { st with
                    queued_messages := rest
                    sent_messages := aset st.sent_messages i
                      [.CreateEntity e le
                        (some (er.components.map (fun c => (c, (rc c).local_key, vc c))))] })).1 }
      i e le (er.components.map (fun c => (c, (rc c).local_key, vc c))) er
      (by
        show alook ((er.components.map (fun c => (c, (rc c).local_key, vc c))).foldl
          ceMaskFoldStep _).2.sent_messages i = _
        rw [g6]
        rw [alook_aset_self])
      (by
        show alook ((er.components.map (fun c => (c, (rc c).local_key, vc c))).foldl
          ceMaskFoldStep _).2.local_entity_store e = _
        rw [g4]
        exact her)
      (by
        show e ∉ ((er.components.map (fun c => (c, (rc c).local_key, vc c))).foldl
          ceMaskFoldStep _).2.delayed_entity_deletions
        rw [g9]
        exact hdel)
      (by
        intro t ht
        show (alook ((er.components.map (fun c => (c, (rc c).local_key, vc c))).foldl
          ceMaskFoldStep _).2.replicate_records t.1).isSome = true
        rw [g2]
        obtain ⟨c', hc', hct⟩ := List.mem_map.mp ht
        subst hct
        rw [hrc c' hc']
        rfl)
      (by
        intro c' hc'
        rw [List.map_map]
        exact List.mem_map_of_mem _ hc')
    refine hd.2 c ?_
    rw [List.map_map]
    exact List.mem_map_of_mem _ hc

/-- The state after add_entity's component-initialization fold on the empty
manager, for one component with key 0 and an empty value. -/
def c2WitStf : RMState :=
  (((replicateInit 0 ⟨0, []⟩ .Creating RMState.new).map (fun q => q.1)).getD RMState.new)

/-- A manager state about to pop a CreateEntity action for entity 0 whose
current component set is the single component 0 with live diff mask 5. -/
def c2WitSt : RMState :=
  { RMState.new with
    nextCell := 1
    heap := fun _ => 5
    queued_messages := [.CreateEntity 0 0 none]
    local_entity_store := [(0, ⟨0, [0], .Creating⟩)]
    replicate_records := [(0, ⟨0, 0, .Creating⟩)]
    local_replicate_store := [(0, ⟨0, []⟩)] }

theorem c2_create_entity_lifecycle_witness :
    (add_entity 0 [(0, ⟨0, []⟩)] RMState.new).map (fun s =>
        (s.queued_messages, (alook s.local_entity_store 0).map (fun r => r.components)))
      = some (c2WitStf.queued_messages
            ++ [.CreateEntity 0 c2WitStf.entity_key_gen.generate.1 none],
          some [0])
    ∧ (pop_outgoing_action 0 c2WitSt).map (fun p => p.2)
      = some (some (.CreateEntity 0 0 (some [(0, 0, ⟨0, []⟩)])))
    ∧ (pop_outgoing_action 0 c2WitSt).map (fun p => p.1.last_popped_diff_mask_list)
      = some (some [(0, 5)])
    ∧ (pop_outgoing_action 0 c2WitSt).map (fun p => p.1.heap 0) = some 0
    ∧ ((pop_outgoing_action 0 c2WitSt).bind (fun p => notify_packet_delivered 0 p.1)).map
        (fun s => ((alook s.local_entity_store 0).map (fun r => r.status), s.queued_messages))
      = some (some .Created, [])
    ∧ ((pop_outgoing_action 0 c2WitSt).bind (fun p => notify_packet_delivered 0 p.1)).map
        (fun s => (alook s.replicate_records 0).map ReplicateRecord.status)
      = some (some .Created) := by
  have h := c2_create_entity_lifecycle RMState.new 0 [(0, ⟨0, []⟩)] c2WitStf
    (by rfl) (by rfl)
    c2WitSt 0 0 0 [] ⟨0, [0], .Creating⟩ (fun _ => ⟨0, 0, .Creating⟩) (fun _ => ⟨0, []⟩)
    (by rfl) (by rfl)
    (by
      intro c hc
      simp only [List.mem_singleton] at hc
      subst hc
      rfl)
    (by
      intro c hc
      simp only [List.mem_singleton] at hc
      subst hc
      rfl)
    (by decide) (by rfl) (by decide)
  exact ⟨h.1, h.2.1, h.2.2.1, h.2.2.2.1 0 (by decide), h.2.2.2.2.1,
    h.2.2.2.2.2 0 (by decide)⟩

/-- The action kinds whose pop records them in sent_messages without any
mask side effect, and whose unpop pushes the same action back unchanged. -/
def passthroughAction : ReplicateAction → Bool
  | .DeleteReplicate _ _ => true
  | .AssignPawn _ _ => true
  | .UnassignPawn _ _ => true
  | .DeleteEntity _ _ => true
  | .AssignPawnEntity _ _ => true
  | .UnassignPawnEntity _ _ => true
  | _ => false

/-- Clearing a heap cell and then writing back its former contents restores
the heap. -/
theorem hupd_restore (h : CellId → DiffMask) (c : CellId) (v : DiffMask) :
    hupd (hupd h c v) c (h c) = h := by
  funext x
  by_cases hx : x = c <;> simp [hupd, hx]

/-- The unpop mask-replay loop of a CreateEntity: each listed record's live
cell is set to the listed value; all other cells and every non-heap field
are untouched. -/
theorem mhSetFold_go (rc : GKey → ReplicateRecord) :
    ∀ (l : List (GKey × DiffMask)) (s : RMState),
      (∀ t ∈ l, alook s.replicate_records t.1 = some (rc t.1)) →
      ((l.map (fun t => (rc t.1).diff_mask_cell)).Nodup) →
      (l.foldl (fun (s : RMState) (t : GKey × DiffMask) => mhSet s t.1 t.2) s).replicate_records
          = s.replicate_records
      ∧ (∀ t ∈ l,
          (l.foldl (fun (s : RMState) (t : GKey × DiffMask) => mhSet s t.1 t.2) s).heap
            (rc t.1).diff_mask_cell = t.2)
      ∧ (∀ x, x ∉ l.map (fun t => (rc t.1).diff_mask_cell) →
          (l.foldl (fun (s : RMState) (t : GKey × DiffMask) => mhSet s t.1 t.2) s).heap x
            = s.heap x)
      ∧ (l.foldl (fun (s : RMState) (t : GKey × DiffMask) => mhSet s t.1 t.2) s).queued_messages
          = s.queued_messages
      ∧ (l.foldl (fun (s : RMState) (t : GKey × DiffMask) => mhSet s t.1 t.2) s).sent_messages
          = s.sent_messages
      ∧ (l.foldl (fun (s : RMState) (t : GKey × DiffMask) => mhSet s t.1 t.2) s).sent_updates
          = s.sent_updates
      ∧ (l.foldl (fun (s : RMState) (t : GKey × DiffMask) => mhSet s t.1 t.2) s).local_entity_store
          = s.local_entity_store := by
  intro l
  induction l with
  | nil =>
    intro s _ _
    refine ⟨rfl, ?_, ?_, rfl, rfl, rfl, rfl⟩
    · intro t ht
      simp at ht
    · intro x _
      rfl
  | cons t ts ih =>
    intro s hrec hnd
    have ht : alook s.replicate_records t.1 = some (rc t.1) := hrec t (by simp)
    have hstep : mhSet s t.1 t.2
        = { s with heap := hupd s.heap (rc t.1).diff_mask_cell t.2 } := by
      unfold mhSet
      rw [ht]
    have hnd' := List.nodup_cons.mp hnd
    have hrec' : ∀ t' ∈ ts, alook ({ s with
        heap := hupd s.heap (rc t.1).diff_mask_cell t.2 } : RMState).replicate_records t'.1
        = some (rc t'.1) := by
      intro t' ht'
      exact hrec t' (by simp [ht'])
    obtain ⟨i1, i2, i3, i4, i5, i6, i7⟩ :=
      ih { s with heap := hupd s.heap (rc t.1).diff_mask_cell t.2 } hrec' hnd'.2
    dsimp only at i1 i2 i3 i4 i5 i6 i7
    rw [List.foldl_cons, hstep]
    refine ⟨i1, ?_, ?_, i4, i5, i6, i7⟩
    · intro t' ht'
      rcases List.mem_cons.mp ht' with rfl | hmem
      · have hnotin : (rc t'.1).diff_mask_cell ∉ ts.map (fun q => (rc q.1).diff_mask_cell) :=
          hnd'.1
        rw [i3 _ hnotin]
        simp [hupd]
      · exact i2 t' hmem
    · intro x hx
      simp only [List.map_cons, List.mem_cons, not_or] at hx
      rw [i3 x hx.2]
      simp [hupd, hx.1]

/-- C4 (amended): popping and immediately unpopping restores the queue, the
sent_messages and sent_updates tables, and the live diff masks — but the
action pushed back at the head of the queue is the pre-pop head rebuilt
around the record's live mask (not the returned action, which carries the
locked snapshot) for update actions, and the materialized action (not the
pre-pop head) for CreateEntity. -/
theorem c4_pop_unpop_roundtrip (i : Nat) :
    (∀ (st : RMState) (hd : ReplicateAction) (rest : List ReplicateAction),
      st.queued_messages = hd :: rest →
      passthroughAction hd = true →
      alook st.sent_messages i = none →
      (pop_outgoing_action i st).bind (fun p => p.2.bind (fun a =>
          (unpop_outgoing_action i a p.1).map (fun s =>
            (a, s.queued_messages, s.sent_messages, s.sent_updates, s.heap))))
        = some (hd, st.queued_messages, st.sent_messages, st.sent_updates, st.heap))
    ∧ (∀ (st : RMState) (g : GKey) (lk : LKey) (v : RepValue) (rest : List ReplicateAction)
          (r : ReplicateRecord),
      st.queued_messages = .CreateObject g lk v :: rest →
      alook st.replicate_records g = some r →
      alook st.sent_messages i = none →
      (pop_outgoing_action i st).bind (fun p => p.2.bind (fun a =>
          (unpop_outgoing_action i a p.1).map (fun s =>
            (a, s.queued_messages, s.sent_messages, s.sent_updates, s.heap))))
        = some (.CreateObject g lk v, st.queued_messages, st.sent_messages, st.sent_updates,
            st.heap))
    ∧ (∀ (st : RMState) (elk : LKey) (g : GKey) (lk : LKey) (v : RepValue)
          (rest : List ReplicateAction) (r : ReplicateRecord),
      st.queued_messages = .AddComponent elk g lk v :: rest →
      alook st.replicate_records g = some r →
      alook st.sent_messages i = none →
      (pop_outgoing_action i st).bind (fun p => p.2.bind (fun a =>
          (unpop_outgoing_action i a p.1).map (fun s =>
            (a, s.queued_messages, s.sent_messages, s.sent_updates, s.heap))))
        = some (.AddComponent elk g lk v, st.queued_messages, st.sent_messages,
            st.sent_updates, st.heap))
    ∧ (∀ (st : RMState) (g : GKey) (lk : LKey) (v : RepValue) (rest : List ReplicateAction)
          (r : ReplicateRecord),
      st.queued_messages = .UpdateReplicate g lk r.diff_mask_cell v :: rest →
      alook st.replicate_records g = some r →
      r.diff_mask_cell < st.nextCell →
      alook st.sent_messages i = none →
      alook st.sent_updates i = none →
      (pop_outgoing_action i st).bind (fun p => p.2.bind (fun a =>
          (unpop_outgoing_action i a p.1).map (fun s =>
            (a, s.queued_messages, s.sent_messages, s.sent_updates,
             s.last_update_packet_index, s.heap r.diff_mask_cell))))
        = some (.UpdateReplicate g lk st.nextCell v, st.queued_messages, st.sent_messages,
            st.sent_updates, st.last_update_packet_index, st.heap r.diff_mask_cell))
    ∧ (∀ (st : RMState) (e : EKey) (le : LKey) (rest : List ReplicateAction)
          (er : EntityRecord) (rc : GKey → ReplicateRecord) (vc : GKey → RepValue),
      st.queued_messages = .CreateEntity e le none :: rest →
      alook st.local_entity_store e = some er →
      (∀ c ∈ er.components, alook st.replicate_records c = some (rc c)) →
      (∀ c ∈ er.components, alook st.local_replicate_store c = some (vc c)) →
      ((er.components.map (fun c => (rc c).diff_mask_cell)).Nodup) →
      alook st.sent_messages i = none →
      ((pop_outgoing_action i st).bind (fun p => p.2.bind (fun a =>
            (unpop_outgoing_action i a p.1).map (fun s =>
              (a, s.queued_messages, s.sent_messages))))
          = some (.CreateEntity e le
                (some (er.components.map (fun c => (c, (rc c).local_key, vc c)))),
              .CreateEntity e le
                (some (er.components.map (fun c => (c, (rc c).local_key, vc c)))) :: rest,
              st.sent_messages))
        ∧ (∀ c ∈ er.components,
            (pop_outgoing_action i st).bind (fun p => p.2.bind (fun a =>
                (unpop_outgoing_action i a p.1).map (fun s =>
                  s.heap (rc c).diff_mask_cell)))
              = some (st.heap (rc c).diff_mask_cell))) := by
  refine ⟨?_, ?_, ?_, ?_, ?_⟩
  · intro st hd rest hq hpass hsm
    cases hd <;> simp [passthroughAction] at hpass <;>
      simp [pop_outgoing_action, hq, materializeCreateEntity, popEffects,
        unpop_outgoing_action, unpopSentMessages, hsm, alook_aset_self,
        adel_aset_absent, aset_aset]
  · intro st g lk v rest r hq hr hsm
    simp [pop_outgoing_action, hq, materializeCreateEntity, popEffects,
      popCreateMask, unpopCreateMask, mhClear, mhSet, hr,
      unpop_outgoing_action, unpopSentMessages, hsm, alook_aset_self,
      adel_aset_absent, hupd_restore]
  · intro st elk g lk v rest r hq hr hsm
    simp [pop_outgoing_action, hq, materializeCreateEntity, popEffects,
      popCreateMask, unpopCreateMask, mhClear, mhSet, hr,
      unpop_outgoing_action, unpopSentMessages, hsm, alook_aset_self,
      adel_aset_absent, hupd_restore]
  · intro st g lk v rest r hq hr hcell hsm hsu
    have hne : r.diff_mask_cell ≠ st.nextCell := Nat.ne_of_lt hcell
    simp [pop_outgoing_action, hq, materializeCreateEntity, popEffects,
      processUpdate, undoUpdate, mhClear, mhSet, hr, hsu, hupd, hne,
      unpop_outgoing_action, unpopSentMessages, hsm, alook_aset_self,
      adel_aset_absent, aset_aset, adel]
  · intro st e le rest er rc vc hq her hrc hvc hnd hsm
    have hpop := pop_create_entity_spec st i e le rest er rc vc hq her hrc hvc hsm
    have hgo := ceMaskFold_go rc (er.components.map (fun c => (c, (rc c).local_key, vc c)))
      ([], { st with
              queued_messages := rest
              sent_messages := aset st.sent_messages i
                [.CreateEntity e le
                  (some (er.components.map (fun c => (c, (rc c).local_key, vc c))))] })
      (by
        intro t ht
        obtain ⟨c, hc, hct⟩ := List.mem_map.mp ht
        subst hct
        exact hrc c hc)
      (by
        rw [List.map_map]
        simpa [Function.comp] using hnd)
    obtain ⟨g1, g2, g3, g4, g5, g6, g7, g8, g9⟩ := hgo
    dsimp only at g1 g2 g3 g4 g5 g6 g7 g8 g9
    have hsent2 : unpopSentMessages
        { ((er.components.map (fun c => (c, (rc c).local_key, vc c))).foldl ceMaskFoldStep
            ([], { st with
                    queued_messages := rest
                    sent_messages := aset st.sent_messages i
                      [.CreateEntity e le
                        (some (er.components.map (fun c => (c, (rc c).local_key, vc c))))] })).2 with
          last_popped_diff_mask_list := some
            ((er.components.map (fun c => (c, (rc c).local_key, vc c))).foldl ceMaskFoldStep
              ([], { st with
                      queued_messages := rest
                      sent_messages := aset st.sent_messages i
                        [.CreateEntity e le
                          (some (er.components.map (fun c => (c, (rc c).local_key, vc c))))] })).1 }
        i = st.sent_messages := by
      unfold unpopSentMessages
      rw [g6]
      rw [alook_aset_self]
      dsimp only [List.dropLast_single]
      rw [if_pos rfl]
      exact adel_aset_absent _ _ _ hsm
    obtain ⟨m1, m2, m3, m4, m5, m6, m7⟩ := mhSetFold_go rc
      ((er.components.map (fun c => (c, (rc c).local_key, vc c))).map
        (fun t => (t.1, st.heap (rc t.1).diff_mask_cell)))
      { ((er.components.map (fun c => (c, (rc c).local_key, vc c))).foldl ceMaskFoldStep
          ([], { st with
                  queued_messages := rest
                  sent_messages := aset st.sent_messages i
                    [.CreateEntity e le
                      (some (er.components.map (fun c => (c, (rc c).local_key, vc c))))] })).2 with
        sent_messages := st.sent_messages
        last_popped_diff_mask_list := some
          ((er.components.map (fun c => (c, (rc c).local_key, vc c))).map
            (fun t => (t.1, st.heap (rc t.1).diff_mask_cell))) }
      (by
        intro t ht
        show alook ((er.components.map (fun c => (c, (rc c).local_key, vc c))).foldl
          ceMaskFoldStep _).2.replicate_records t.1 = _
        rw [g2]
        obtain ⟨q, hq', hqt⟩ := List.mem_map.mp ht
        obtain ⟨c, hc, hcq⟩ := List.mem_map.mp hq'
        subst hqt
        subst hcq
        exact hrc c hc)
      (by
        simp only [List.map_map]
        simpa [Function.comp] using hnd)
    dsimp only at m1 m2 m3 m4 m5 m6 m7
    rw [hpop]
    simp only [Option.bind_eq_bind, Option.some_bind]
    refine ⟨?_, ?_⟩
    · unfold unpop_outgoing_action
      dsimp only
      rw [hsent2]
      rw [g1, List.nil_append]
      rw [m4, m5]
      rw [g8]
      rfl
    · intro c hc
      unfold unpop_outgoing_action
      dsimp only
      rw [hsent2]
      rw [g1, List.nil_append]
      have hm2 := m2 (c, st.heap (rc c).diff_mask_cell)
        (List.mem_map_of_mem _ (List.mem_map_of_mem _ hc))
      dsimp only at hm2
      simp only [Option.map_some', Option.some_inj]
      exact hm2

/-- A one-record manager state with the given queue: component key 0 has a
record with local key 0, mask cell 0 holding live mask 3, entity 0 owns it. -/
def c4WitBase (q : List ReplicateAction) : RMState :=
  { RMState.new with
    nextCell := 1
    heap := fun _ => 3
    queued_messages := q
    replicate_records := [(0, ⟨0, 0, .Creating⟩)]
    local_replicate_store := [(0, ⟨0, []⟩)]
    local_entity_store := [(0, ⟨0, [0], .Creating⟩)] }

theorem c4_pop_unpop_roundtrip_witness :
    ((pop_outgoing_action 0 (c4WitBase [.DeleteReplicate 0 0])).bind (fun p =>
        p.2.bind (fun a =>
          (unpop_outgoing_action 0 a p.1).map (fun s =>
            (a, s.queued_messages, s.sent_messages, s.sent_updates, s.heap))))
      = some (.DeleteReplicate 0 0, [.DeleteReplicate 0 0], [], [],
          (c4WitBase [.DeleteReplicate 0 0]).heap))
    ∧ ((pop_outgoing_action 0 (c4WitBase [.CreateObject 0 0 ⟨0, []⟩])).bind (fun p =>
        p.2.bind (fun a =>
          (unpop_outgoing_action 0 a p.1).map (fun s =>
            (a, s.queued_messages, s.sent_messages, s.sent_updates, s.heap))))
      = some (.CreateObject 0 0 ⟨0, []⟩, [.CreateObject 0 0 ⟨0, []⟩], [], [],
          (c4WitBase [.CreateObject 0 0 ⟨0, []⟩]).heap))
    ∧ ((pop_outgoing_action 0 (c4WitBase [.AddComponent 0 0 0 ⟨0, []⟩])).bind (fun p =>
        p.2.bind (fun a =>
          (unpop_outgoing_action 0 a p.1).map (fun s =>
            (a, s.queued_messages, s.sent_messages, s.sent_updates, s.heap))))
      = some (.AddComponent 0 0 0 ⟨0, []⟩, [.AddComponent 0 0 0 ⟨0, []⟩], [], [],
          (c4WitBase [.AddComponent 0 0 0 ⟨0, []⟩]).heap))
    ∧ ((pop_outgoing_action 0 (c4WitBase [.UpdateReplicate 0 0 0 ⟨0, []⟩])).bind (fun p =>
        p.2.bind (fun a =>
          (unpop_outgoing_action 0 a p.1).map (fun s =>
            (a, s.queued_messages, s.sent_messages, s.sent_updates,
             s.last_update_packet_index, s.heap 0))))
      = some (.UpdateReplicate 0 0 1 ⟨0, []⟩, [.UpdateReplicate 0 0 0 ⟨0, []⟩], [], [], 0, 3))
    ∧ ((pop_outgoing_action 0 (c4WitBase [.CreateEntity 0 0 none])).bind (fun p =>
        p.2.bind (fun a =>
          (unpop_outgoing_action 0 a p.1).map (fun s =>
            (a, s.queued_messages, s.sent_messages))))
      = some (.CreateEntity 0 0 (some [(0, 0, ⟨0, []⟩)]),
          [.CreateEntity 0 0 (some [(0, 0, ⟨0, []⟩)])], []))
    ∧ ((pop_outgoing_action 0 (c4WitBase [.CreateEntity 0 0 none])).bind (fun p =>
        p.2.bind (fun a =>
          (unpop_outgoing_action 0 a p.1).map (fun s => s.heap 0)))
      = some 3) := by
  have h := c4_pop_unpop_roundtrip 0
  have h5 := h.2.2.2.2 (c4WitBase [.CreateEntity 0 0 none]) 0 0 []
    ⟨0, [0], .Creating⟩ (fun _ => ⟨0, 0, .Creating⟩) (fun _ => ⟨0, []⟩)
    (by rfl) (by rfl)
    (by
      intro c hc
      simp only [List.mem_singleton] at hc
      subst hc
      rfl)
    (by
      intro c hc
      simp only [List.mem_singleton] at hc
      subst hc
      rfl)
    (by decide) (by rfl)
  refine ⟨?_, ?_, ?_, ?_, h5.1, h5.2 0 (by decide)⟩
  · exact h.1 (c4WitBase [.DeleteReplicate 0 0]) (.DeleteReplicate 0 0) []
      (by rfl) (by rfl) (by rfl)
  · exact h.2.1 (c4WitBase [.CreateObject 0 0 ⟨0, []⟩]) 0 0 ⟨0, []⟩ []
      ⟨0, 0, .Creating⟩ (by rfl) (by rfl) (by rfl)
  · exact h.2.2.1 (c4WitBase [.AddComponent 0 0 0 ⟨0, []⟩]) 0 0 0 ⟨0, []⟩ []
      ⟨0, 0, .Creating⟩ (by rfl) (by rfl) (by rfl)
  · exact h.2.2.2.1 (c4WitBase [.UpdateReplicate 0 0 0 ⟨0, []⟩]) 0 0 ⟨0, []⟩ []
      ⟨0, 0, .Creating⟩ (by rfl) (by rfl) (by decide) (by rfl) (by rfl)

/-- The literal claim fails for update actions: the returned action carries
the locked snapshot cell, while the action pushed back at the head of the
queue is rebuilt around the record's live cell, so the returned action is
not what reappears at the head. -/
theorem c4_update_unpop_cex :
    ((pop_outgoing_action 0 (c4WitBase [.UpdateReplicate 0 0 0 ⟨0, []⟩])).bind (fun p =>
        p.2.bind (fun a =>
          (unpop_outgoing_action 0 a p.1).map (fun s => (a, s.queued_messages.head?))))
      = some (.UpdateReplicate 0 0 1 ⟨0, []⟩, some (.UpdateReplicate 0 0 0 ⟨0, []⟩)))
    ∧ (ReplicateAction.UpdateReplicate 0 0 1 ⟨0, []⟩ ≠ .UpdateReplicate 0 0 0 ⟨0, []⟩) := by
  constructor
  · rfl
  · decide

/-- The update actions, the only dropped-action kind with a mask side
effect in notify_packet_dropped. -/
def isUpdateAction : ReplicateAction → Bool
  | .UpdateReplicate _ _ _ _ => true
  | .UpdatePawn _ _ _ _ => true
  | _ => false

/-- A dropped guaranteed-delivery action is simply re-enqueued at the tail. -/
theorem dropStep_nonupdate (i : Nat) (st : RMState) (msg : ReplicateAction)
    (h : isUpdateAction msg = false) :
    dropStep i st msg = { st with queued_messages := st.queued_messages ++ [msg] } := by
  cases msg <;> simp [isUpdateAction] at h <;> rfl

/-- A run of dropped guaranteed-delivery actions appends them all to the
queue and changes nothing else. -/
theorem dropFold_nonupdate (i : Nat) :
    ∀ (l : List ReplicateAction) (st : RMState),
      (∀ m ∈ l, isUpdateAction m = false) →
      l.foldl (dropStep i) st = { st with queued_messages := st.queued_messages ++ l } := by
  intro l
  induction l with
  | nil =>
    intro st _
    rw [List.foldl_nil, List.append_nil]
  | cons a t ih =>
    intro st hl
    rw [List.foldl_cons, dropStep_nonupdate i st a (hl a (by simp))]
    rw [ih _ (fun m hm => hl m (by simp [hm]))]
    dsimp only
    rw [List.append_assoc, List.singleton_append]

/-- The mask side effect of one dropped update action, when the packet has
a recorded snapshot for the key and is not the latest update packet. -/
theorem dropUpdate_eq (i : Nat) (st : RMState) (g : GKey) (m : List (GKey × CellId))
    (snapCell : CellId) (r : ReplicateRecord)
    (hsu : alook st.sent_updates i = some m)
    (hmg : alook m g = some snapCell)
    (hne : i ≠ st.last_update_packet_index)
    (hr : alook st.replicate_records g = some r) :
    dropUpdate i st g
      = { st with
          heap := hupd st.heap r.diff_mask_cell
            (st.heap r.diff_mask_cell
              ||| nandFold (st.heap snapCell) ((betweenCells st i g).map st.heap)) } := by
  unfold dropUpdate
  rw [hsu]
  dsimp only
  rw [hmg]
  dsimp only
  rw [hr]
  dsimp only
  rw [if_neg hne]

/-- C1: when a packet carrying an update action for key g is reported
dropped, the manager ORs into g's live diff mask the dropped snapshot AND
NOT the union of the snapshots recorded for g on packets strictly between
the dropped packet and the latest update packet (in wrapping u16 order),
touches no other mask, and removes the sent_updates and sent_messages
entries of the dropped packet. -/
theorem c1_dropped_update_mask_reconstruction
    (st : RMState) (i : Nat) (g : GKey) (l : LKey) (mc : CellId) (v : RepValue)
    (pre post : List ReplicateAction) (m : List (GKey × CellId))
    (snapCell : CellId) (r : ReplicateRecord)
    (hmsgs : alook st.sent_messages i = some (pre ++ .UpdateReplicate g l mc v :: post))
    (hpre : ∀ a ∈ pre, isUpdateAction a = false)
    (hpost : ∀ a ∈ post, isUpdateAction a = false)
    (hsu : alook st.sent_updates i = some m)
    (hmg : alook m g = some snapCell)
    (hne : i ≠ st.last_update_packet_index)
    (hr : alook st.replicate_records g = some r) :
    (notify_packet_dropped i st).heap r.diff_mask_cell
        = st.heap r.diff_mask_cell
          ||| dmNand (st.heap snapCell) (lorAll ((betweenCells st i g).map st.heap))
    ∧ (∀ x, x ≠ r.diff_mask_cell → (notify_packet_dropped i st).heap x = st.heap x)
    ∧ (notify_packet_dropped i st).sent_updates = adel st.sent_updates i
    ∧ (notify_packet_dropped i st).sent_messages = adel st.sent_messages i
    ∧ (notify_packet_dropped i st).queued_messages = (st.queued_messages ++ pre) ++ post := by
  have hstate : notify_packet_dropped i st
      = { st with
          queued_messages := (st.queued_messages ++ pre) ++ post
          heap := hupd st.heap r.diff_mask_cell
            (st.heap r.diff_mask_cell
              ||| nandFold (st.heap snapCell) ((betweenCells st i g).map st.heap))
          sent_updates := adel st.sent_updates i
          sent_messages := adel st.sent_messages i } := by
    unfold notify_packet_dropped
    rw [hmsgs]
    dsimp only
    rw [List.foldl_append, dropFold_nonupdate i pre st hpre, List.foldl_cons]
    have hds : dropStep i ({ st with queued_messages := st.queued_messages ++ pre } : RMState)
        (.UpdateReplicate g l mc v)
        = dropUpdate i { st with queued_messages := st.queued_messages ++ pre } g := rfl
    rw [hds]
    rw [dropUpdate_eq i { st with queued_messages := st.queued_messages ++ pre } g m
      snapCell r hsu hmg hne hr]
    rw [dropFold_nonupdate i post _ hpost]
    rfl
  refine ⟨?_, ?_, ?_, ?_, ?_⟩
  · rw [hstate]
    dsimp only
    rw [nandFold_eq_dmNand_lorAll]
    simp [hupd]
  · intro x hx
    rw [hstate]
    dsimp only
    simp [hupd, hx]
  · rw [hstate]
  · rw [hstate]
  · rw [hstate]

/-- A manager that sent updates for key 0 on packets 10 (snapshot 00000101),
11 (snapshot 00000100) and 12 (snapshot 00001000), with the live mask
cleared; dropping packet 10 must restore live mask
00000101 AND NOT 00000100 = 00000001. -/
def c1WitSt : RMState :=
  { RMState.new with
    nextCell := 4
    heap := fun c => if c = 1 then 5 else if c = 2 then 4 else if c = 3 then 8 else 0
    replicate_records := [(0, ⟨0, 0, .Created⟩)]
    sent_messages := [(10, [.UpdateReplicate 0 0 1 ⟨0, []⟩])]
    sent_updates := [(10, [(0, 1)]), (11, [(0, 2)]), (12, [(0, 3)])]
    last_update_packet_index := 12 }

theorem c1_dropped_update_mask_reconstruction_witness :
    (notify_packet_dropped 10 c1WitSt).heap 0 = 1
    ∧ (notify_packet_dropped 10 c1WitSt).heap 3 = 8
    ∧ (notify_packet_dropped 10 c1WitSt).sent_updates = [(11, [(0, 2)]), (12, [(0, 3)])]
    ∧ (notify_packet_dropped 10 c1WitSt).sent_messages = []
    ∧ (notify_packet_dropped 10 c1WitSt).queued_messages = [] := by
  have h := c1_dropped_update_mask_reconstruction c1WitSt 10 0 0 1 ⟨0, []⟩ [] [] [(0, 1)] 1
    ⟨0, 0, .Created⟩ (by rfl) (by simp) (by simp) (by rfl) (by rfl) (by decide) (by rfl)
  exact ⟨h.1.trans (by decide), (h.2.1 3 (by decide)).trans (by decide),
    h.2.2.1.trans (by decide), h.2.2.2.1.trans (by decide), h.2.2.2.2.trans (by decide)⟩

end Naia
